import Mathlib

/-!
Verification of the Infoblox mock server's core object store, query engine,
address allocator and attribute-inheritance resolver, shallowly embedded from
`infoblox_mock_server/infoblox_mock/{db,routes,utils,validators}.py` and
`infoblox_mock/models/network.py`.

Records are modelled as Python-style dictionaries: association lists from
field names to dynamically typed values.  IP addresses are naturals
(the integer value of the address); CIDRs are (address, prefix-length) pairs.
-/

set_option synthInstance.maxSize 2000

namespace Infoblox

/-- Dynamically typed Python value as stored in a record field. -/
inductive PyValue where
  | str (s : String)
  | int (n : Int)
  | bool (b : Bool)
  | list (xs : List PyValue)
  | dict (kvs : List (String × PyValue))

mutual

/-- Structural equality of values, Python `==`. -/
def PyValue.beq : PyValue → PyValue → Bool
  | .str a, .str b => a == b
  | .int a, .int b => a == b
  | .bool a, .bool b => a == b
  | .list xs, .list ys => PyValue.beqList xs ys
  | .dict xs, .dict ys => PyValue.beqKVs xs ys
  | _, _ => false

/-- Elementwise equality of value lists. -/
def PyValue.beqList : List PyValue → List PyValue → Bool
  | [], [] => true
  | x :: xs, y :: ys => PyValue.beq x y && PyValue.beqList xs ys
  | _, _ => false

/-- Elementwise equality of key/value binding lists. -/
def PyValue.beqKVs : List (String × PyValue) → List (String × PyValue) → Bool
  | [], [] => true
  | (k1, v1) :: xs, (k2, v2) :: ys =>
      k1 == k2 && PyValue.beq v1 v2 && PyValue.beqKVs xs ys
  | _, _ => false

end

instance : BEq PyValue := ⟨PyValue.beq⟩

mutual

theorem PyValue.beq_refl : ∀ a : PyValue, PyValue.beq a a = true
  | .str a => by simp [PyValue.beq]
  | .int a => by simp [PyValue.beq]
  | .bool a => by simp [PyValue.beq]
  | .list xs => by simp [PyValue.beq, PyValue.beqList_refl xs]
  | .dict xs => by simp [PyValue.beq, PyValue.beqKVs_refl xs]

theorem PyValue.beqList_refl : ∀ xs : List PyValue, PyValue.beqList xs xs = true
  | [] => by simp [PyValue.beqList]
  | x :: xs => by
      simp [PyValue.beqList, PyValue.beq_refl x, PyValue.beqList_refl xs]

theorem PyValue.beqKVs_refl :
    ∀ xs : List (String × PyValue), PyValue.beqKVs xs xs = true
  | [] => by simp [PyValue.beqKVs]
  | (k, v) :: xs => by
      simp [PyValue.beqKVs, PyValue.beq_refl v, PyValue.beqKVs_refl xs]

end

mutual

theorem PyValue.eq_of_beq : ∀ {a b : PyValue}, PyValue.beq a b = true → a = b
  | .str a, .str b, h => by
      simp [PyValue.beq] at h; simp [h]
  | .int a, .int b, h => by
      simp [PyValue.beq] at h; simp [h]
  | .bool a, .bool b, h => by
      simp [PyValue.beq] at h; simp [h]
  | .list xs, .list ys, h => by
      simp [PyValue.beq] at h
      simp [PyValue.eqList_of_beq h]
  | .dict xs, .dict ys, h => by
      simp [PyValue.beq] at h
      simp [PyValue.eqKVs_of_beq h]
  | .str _, .int _, h => by simp [PyValue.beq] at h
  | .str _, .bool _, h => by simp [PyValue.beq] at h
  | .str _, .list _, h => by simp [PyValue.beq] at h
  | .str _, .dict _, h => by simp [PyValue.beq] at h
  | .int _, .str _, h => by simp [PyValue.beq] at h
  | .int _, .bool _, h => by simp [PyValue.beq] at h
  | .int _, .list _, h => by simp [PyValue.beq] at h
  | .int _, .dict _, h => by simp [PyValue.beq] at h
  | .bool _, .str _, h => by simp [PyValue.beq] at h
  | .bool _, .int _, h => by simp [PyValue.beq] at h
  | .bool _, .list _, h => by simp [PyValue.beq] at h
  | .bool _, .dict _, h => by simp [PyValue.beq] at h
  | .list _, .str _, h => by simp [PyValue.beq] at h
  | .list _, .int _, h => by simp [PyValue.beq] at h
  | .list _, .bool _, h => by simp [PyValue.beq] at h
  | .list _, .dict _, h => by simp [PyValue.beq] at h
  | .dict _, .str _, h => by simp [PyValue.beq] at h
  | .dict _, .int _, h => by simp [PyValue.beq] at h
  | .dict _, .bool _, h => by simp [PyValue.beq] at h
  | .dict _, .list _, h => by simp [PyValue.beq] at h

theorem PyValue.eqList_of_beq :
    ∀ {xs ys : List PyValue}, PyValue.beqList xs ys = true → xs = ys
  | [], [], _ => rfl
  | x :: xs, y :: ys, h => by
      simp [PyValue.beqList] at h
      simp [PyValue.eq_of_beq h.1, PyValue.eqList_of_beq h.2]
  | [], _ :: _, h => by simp [PyValue.beqList] at h
  | _ :: _, [], h => by simp [PyValue.beqList] at h

theorem PyValue.eqKVs_of_beq :
    ∀ {xs ys : List (String × PyValue)}, PyValue.beqKVs xs ys = true → xs = ys
  | [], [], _ => rfl
  | (k1, v1) :: xs, (k2, v2) :: ys, h => by
      simp [PyValue.beqKVs] at h
      simp [h.1.1, PyValue.eq_of_beq h.1.2, PyValue.eqKVs_of_beq h.2]
  | [], _ :: _, h => by simp [PyValue.beqKVs] at h
  | _ :: _, [], h => by simp [PyValue.beqKVs] at h

end

theorem PyValue.beq_iff_eq {a b : PyValue} : PyValue.beq a b = true ↔ a = b :=
  ⟨PyValue.eq_of_beq, fun h => h ▸ PyValue.beq_refl a⟩

instance : DecidableEq PyValue := fun a b =>
  decidable_of_iff (PyValue.beq a b = true) PyValue.beq_iff_eq

instance : LawfulBEq PyValue where
  eq_of_beq := PyValue.eq_of_beq
  rfl := PyValue.beq_refl _

deriving instance DecidableEq for Except

/-- Generic string-keyed association-list lookup: first binding wins, as in
a Python dict (whose keys are unique). -/
def assocFind {α : Type} (l : List (String × α)) (k : String) : Option α :=
  (l.find? (fun kv => kv.1 == k)).map (fun kv => kv.2)

/-- Generic Python `k in d`. -/
def assocHas {α : Type} (l : List (String × α)) (k : String) : Bool :=
  l.any (fun kv => kv.1 == k)

/-- Generic Python `d[k] = v`: replace the binding in place if the key
exists (a dict's keys are unique, so replacing the first binding preserved
Python's insertion order), else append a new binding at the end. -/
def assocSet {α : Type} : List (String × α) → String → α → List (String × α)
  | [], k, v => [(k, v)]
  | (k0, v0) :: rest, k, v =>
      if k0 == k then (k, v) :: rest else (k0, v0) :: assocSet rest k v

/-- A record / Python dict: association list, first binding wins on lookup. -/
abbrev PyDict := List (String × PyValue)

/-- Python dict lookup `d.get(k)`, `none` when the key is absent. -/
def dictGet (d : PyDict) (k : String) : Option PyValue :=
  assocFind d k

/-- Python `k in d`. -/
def containsKey (d : PyDict) (k : String) : Bool :=
  assocHas d k

/-- Python `d[k] = v`. -/
def dictSet (d : PyDict) (k : String) (v : PyValue) : PyDict :=
  assocSet d k v

mutual

/-- Python `repr` of a value, used when rendering nested containers. String
escaping is approximated by plain single quotes, which matches Python for the
identifier-like strings stored by this server. -/
def pyRepr : PyValue → String
  | .str s => "'" ++ s ++ "'"
  | .int n => toString n
  | .bool b => if b then "True" else "False"
  | .list xs => "[" ++ pyReprList xs ++ "]"
  | .dict kvs => "\x7b" ++ pyReprKVs kvs ++ "\x7d"

/-- Comma-joined `repr`s of the elements of a list. -/
def pyReprList : List PyValue → String
  | [] => ""
  | [x] => pyRepr x
  | x :: y :: xs => pyRepr x ++ ", " ++ pyReprList (y :: xs)

/-- Comma-joined `repr`s of the bindings of a dict. -/
def pyReprKVs : List (String × PyValue) → String
  | [] => ""
  | [(k, v)] => "'" ++ k ++ "': " ++ pyRepr v
  | (k, v) :: p :: xs => "'" ++ k ++ "': " ++ pyRepr v ++ ", " ++ pyReprKVs (p :: xs)

end

/-- Python `str` of a value: a string renders as itself, `True`/`False` for
booleans, decimal for integers, `repr` rendering for containers. -/
def pyStr : PyValue → String
  | .str s => s
  | .int n => toString n
  | .bool b => if b then "True" else "False"
  | .list xs => pyRepr (.list xs)
  | .dict kvs => pyRepr (.dict kvs)

/-- Python `str` applied to an optional value (`str(None) = "None"`), as in
the f-strings of `generate_ref`. -/
def pyStrOpt : Option PyValue → String
  | none => "None"
  | some v => pyStr v

/-- Python truthiness of a value. -/
def pyTruthy : PyValue → Bool
  | .str s => !(s == "")
  | .int n => !(n == 0)
  | .bool b => b
  | .list xs => !xs.isEmpty
  | .dict kvs => !kvs.isEmpty

/-- Python `a or b` over optional values: `b` when `a` is `None` or falsy. -/
def pyOr (a b : Option PyValue) : Option PyValue :=
  match a with
  | some v => if pyTruthy v then some v else b
  | none => b

/-! ### String helpers

Structurally recursive implementations of the Python string operations the
source uses (`startswith`, `split`, `in`, `lower`), over the character
lists underlying Lean strings. -/

/-- Whether the first character list is a prefix of the second. -/
def charListPrefix : List Char → List Char → Bool
  | [], _ => true
  | _ :: _, [] => false
  | c :: cs, d :: ds => c == d && charListPrefix cs ds

/-- Python `s.startswith(pre)`. -/
def strStartsWith (s pre : String) : Bool :=
  charListPrefix pre.toList s.toList

/-- Split a character list on a separator character; the empty list yields
one empty group, as Python's `"".split(c)` yields `[""]`. -/
def splitOnChar (sep : Char) : List Char → List (List Char)
  | [] => [[]]
  | c :: rest =>
    if c == sep then [] :: splitOnChar sep rest
    else
      match splitOnChar sep rest with
      | [] => [[c]]
      | g :: gs => (c :: g) :: gs

/-- Python `s.split(sep)` for a one-character separator. -/
def strSplitOnChar (s : String) (sep : Char) : List String :=
  (splitOnChar sep s.toList).map (fun g => String.mk g)

/-- Python `c in s` for a single character. -/
def strContainsChar (s : String) (c : Char) : Bool :=
  s.toList.any (fun d => d == c)

/-- Python `s.lower()` (ASCII case mapping, which covers every string this
server stores). -/
def strToLower (s : String) : String :=
  String.mk (s.toList.map Char.toLower)

/-! ## Query engine: `find_objects_by_query` (db.py lines 296-356) -/

/-- Walk the leading parts of a dotted filter key through nested dicts
(db.py lines 317-324): `if part in curr: curr = curr[part] else: match=False`.
On a non-dict intermediate value Python's `in`/`[]` would raise for the
record shapes at issue; such traversals never succeed. -/
def traverseParts : PyValue → List String → Option PyValue
  | curr, [] => some curr
  | curr, p :: rest =>
    match curr with
    | .dict d =>
      match dictGet d p with
      | some v => traverseParts v rest
      | none => none
    | _ => none

/-- Dotted-key branch of the matcher (db.py lines 316-326): traverse
`parts[:-1]`, then require the leaf present with `str`-equal value (no
case-insensitive fallback in this branch). -/
def matchDotted (obj : PyDict) (key : String) (value : PyValue) : Bool :=
  let parts := strSplitOnChar key '.'
  match traverseParts (.dict obj) parts.dropLast with
  | none => false
  | some curr =>
    match curr with
    | .dict d =>
      match dictGet d (parts.getLastD "") with
      | none => false
      | some leaf => pyStr leaf == pyStr value
    | _ => false

/-- One `addr["ipv4addr"] == value` test of the generator expression in
db.py line 330. Entries of `ipv4addrs` are dicts carrying `ipv4addr`
(enforced by the validators); Python would raise otherwise. -/
def entryIpv4Matches (value addr : PyValue) : Bool :=
  match addr with
  | .dict d =>
    match dictGet d "ipv4addr" with
    | some a => a == value
    | none => false
  | _ => false

/-- The test `any(addr["ipv4addr"] == value for addr in obj.get("ipv4addrs", []))`
(db.py line 330). A non-list `ipv4addrs` never occurs in stored records. -/
def ipv4addrsAny (obj : PyDict) (value : PyValue) : Bool :=
  match dictGet obj "ipv4addrs" with
  | some (.list xs) => xs.any (fun addr => entryIpv4Matches value addr)
  | _ => false

/-- Per-filter-key match of db.py lines 314-339: dotted keys traverse nested
maps; the key `ipv4addr` on a record carrying `ipv4addrs` checks the list
entries; otherwise `str`-coerced equality with a case-insensitive fallback
when both the stored and the filter value are strings. -/
def matchKV (obj : PyDict) (key : String) (value : PyValue) : Bool :=
  if strContainsChar key '.' then
    matchDotted obj key value
  else if key == "ipv4addr" && containsKey obj "ipv4addrs" then
    ipv4addrsAny obj value
  else
    match dictGet obj key with
    | none => false
    | some v =>
      if pyStr v == pyStr value then true
      else
        match v, value with
        | .str s, .str t => strToLower s == strToLower t
        | _, _ => false

/-- Logical AND of the per-key matches (db.py lines 312-342). -/
def matchesQuery (obj : PyDict) (query : List (String × PyValue)) : Bool :=
  query.all (fun kv => matchKV obj kv.1 kv.2)

/-- Parameters stripped from the filter before matching (db.py line 305). -/
def specialParams : List String :=
  ["_max_results", "_return_fields", "_paging", "_return_as_object"]

/-- Core of `find_objects_by_query` on one collection: strip special
parameters, keep the records every remaining key matches. Result capping and
field projection act on this list afterwards. -/
def find_objects_by_query (coll : List PyDict)
    (queryParams : List (String × PyValue)) : List PyDict :=
  let actualQuery := queryParams.filter (fun kv => !specialParams.contains kv.1)
  coll.filter (fun obj => matchesQuery obj actualQuery)

/-! ## Object store (db.py lines 284-425, routes.py lines 25-119) -/

/-- The in-memory database: collections of records keyed by object type. -/
abbrev DB := List (String × List PyDict)

/-- Collection lookup `db[t]`. -/
def dbGet (db : DB) (t : String) : Option (List PyDict) :=
  assocFind db t

/-- Python `t in db`. -/
def dbHas (db : DB) (t : String) : Bool :=
  assocHas db t

/-- Collection assignment `db[t] = coll`. -/
def dbSet (db : DB) (t : String) (coll : List PyDict) : DB :=
  assocSet db t coll

/-- The type segment `ref.split('/')[0]` of a reference. -/
def refObjType (ref : String) : String :=
  (strSplitOnChar ref '/').headD ""

/-- The function `find_object_by_ref` (db.py lines 284-294): route on the leading type
segment, then scan that collection for an exact `_ref` match. -/
def find_object_by_ref (db : DB) (ref : String) : Option PyDict :=
  match dbGet db (refObjType ref) with
  | none => none
  | some coll => coll.find? (fun o => dictGet o "_ref" == some (.str ref))

/-- The function `add_object` (db.py lines 376-384): append to the type's collection
(created when missing) and return the record's `_ref`. -/
def add_object (db : DB) (objType : String) (data : PyDict) :
    DB × Option PyValue :=
  let coll := (dbGet db objType).getD []
  (dbSet db objType (coll ++ [data]), dictGet data "_ref")

/-- The field loop of `update_object` (db.py lines 394-398): copy every
patch field whose name does not start with `_` into the record. -/
def mergeNonReserved (obj : PyDict) (patch : PyDict) : PyDict :=
  patch.foldl
    (fun acc kv => if strStartsWith kv.1 "_" then acc else dictSet acc kv.1 kv.2)
    obj

/-- The full record mutation of `update_object` (db.py lines 392-401): the
field merge followed by restamping `_modify_time` with the current time. -/
def applyPatch (obj : PyDict) (patch : PyDict) (now : String) : PyDict :=
  dictSet (mergeNonReserved obj patch) "_modify_time" (.str now)

/-- The last patch binding for a key: what a Python dict patch (whose keys
are unique, later literal entries overriding earlier ones) supplies for `k`. -/
def lastPatchGet (patch : PyDict) (k : String) : Option PyValue :=
  (patch.reverse.find? (fun kv => kv.1 == k)).map (fun kv => kv.2)

/-- The function `update_object` (db.py lines 386-403): find the record by reference,
merge the non-reserved patch fields in place, restamp `_modify_time`, return
the unchanged reference; `None` when the reference resolves to nothing. -/
def update_object (db : DB) (ref : String) (patch : PyDict) (now : String) :
    Option String × DB :=
  match dbGet db (refObjType ref) with
  | none => (none, db)
  | some coll =>
    match coll.findIdx? (fun o => dictGet o "_ref" == some (.str ref)) with
    | none => (none, db)
    | some i =>
      match coll[i]? with
      | none => (none, db)
      | some o =>
        (some ref, dbSet db (refObjType ref) (coll.set i (applyPatch o patch now)))

/-- The function `delete_object` (db.py lines 405-425): find the record in the collection
named by the reference's type segment, then rebuild that collection without
any record of that `_ref`; `None` when absent. -/
def delete_object (db : DB) (ref : String) : Option String × DB :=
  match dbGet db (refObjType ref) with
  | none => (none, db)
  | some coll =>
    if coll.any (fun o => dictGet o "_ref" == some (.str ref)) then
      (some ref,
       dbSet db (refObjType ref)
         (coll.filter (fun o => !(dictGet o "_ref" == some (.str ref)))))
    else (none, db)

/-! ## Reference generation and creation route (utils.py 11-35, routes.py 36-75) -/

/-- The constant opaque token every deterministic branch of `generate_ref`
embeds. The source computes a uuid4-derived `encoded` string in those
branches but never uses it. -/
def opaqueToken : String := "ZG5zLm5ldHdvcmskMTAuMTAuMTAuMC8yNA"

/-- The function `generate_ref` (utils.py lines 11-35). Only the final catch-all branch
uses a fresh uuid (passed here as `uuid`); the others combine the constant
token with the natural-key field rendered by `str`. -/
def generate_ref (objType : String) (data : PyDict) (uuid : String) : String :=
  if objType == "network" || objType == "network_container" then
    objType ++ "/" ++ opaqueToken ++ ":" ++ pyStrOpt (dictGet data "network")
  else if objType == "range" then
    objType ++ "/" ++ opaqueToken ++ ":" ++ pyStrOpt (dictGet data "start_addr")
      ++ "-" ++ pyStrOpt (dictGet data "end_addr")
  else if strStartsWith objType "record:" then
    objType ++ "/" ++ opaqueToken ++ ":" ++ pyStrOpt (dictGet data "name")
  else if objType == "lease" || objType == "fixedaddress" then
    objType ++ "/" ++ opaqueToken ++ ":" ++
      pyStrOpt (pyOr (dictGet data "ipv4addr") (dictGet data "ip_address"))
  else
    objType ++ "/" ++ uuid

/-- The POST branch of `handle_objects` (routes.py lines 36-75), entered with
already-validated data: stamp the generated `_ref`, reject a natural-key
duplicate (`network`+`network_view` for networks and containers, `name`+`view`
for `record:*` types), else append via `add_object`. -/
def handleObjectsPost (db : DB) (objType : String) (validated : PyDict)
    (uuid : String) : Except String (DB × Option PyValue) :=
  let data := dictSet validated "_ref" (.str (generate_ref objType validated uuid))
  if objType == "network" || objType == "network_container" then
    if ((dbGet db objType).getD []).any (fun ex =>
        dictGet ex "network" == dictGet data "network" &&
        dictGet ex "network_view" == dictGet data "network_view") then
      .error ("Network already exists: " ++ pyStrOpt (dictGet data "network"))
    else
      .ok (add_object db objType data)
  else if strStartsWith objType "record:" then
    if ((dbGet db objType).getD []).any (fun ex =>
        dictGet ex "name" == dictGet data "name" &&
        dictGet ex "view" == dictGet data "view") then
      .error ("DNS record already exists: " ++ pyStrOpt (dictGet data "name"))
    else
      .ok (add_object db objType data)
  else
    .ok (add_object db objType data)

/-! ## IPv4 allocator: `find_next_available_ip` (utils.py lines 37-59) -/

/-- Number of addresses in an IPv4 block of the given prefix length. -/
def ipv4Size (plen : Nat) : Nat := 2 ^ (32 - plen)

/-- The block's broadcast address (its last address). -/
def ipv4Broadcast (base plen : Nat) : Nat := base + ipv4Size plen - 1

/-- Python `IPv4Network.hosts()`: all addresses strictly between network and
broadcast for ordinary prefixes; both addresses for /31; the single address
for /32. -/
def ipv4Hosts (base plen : Nat) : List Nat :=
  if plen == 32 then [base]
  else if plen == 31 then [base, base + 1]
  else (List.range (ipv4Size plen - 2)).map (fun i => base + 1 + i)

/-- The skip condition of utils.py line 47: network address, broadcast
address, or a dotted rendering ending in `.0`, `.1` or `.255` — i.e. a final
octet of 0, 1 or 255. -/
def ipv4Special (base plen ip : Nat) : Bool :=
  ip == base || ip == ipv4Broadcast base plen ||
  ip % 256 == 0 || ip % 256 == 1 || ip % 256 == 255

/-- The enumeration loop of utils.py lines 43-51: the first address not in
`used` survives the skip check or the scan continues. -/
def findIPv4Loop (used : Nat → Bool) (base plen : Nat) : List Nat → Option Nat
  | [] => none
  | ip :: rest =>
    if !(used ip) then
      if ipv4Special base plen ip then findIPv4Loop used base plen rest
      else some ip
    else
      findIPv4Loop used base plen rest

/-- The function `find_next_available_ip` (utils.py lines 37-59). -/
def find_next_available_ip (base plen : Nat) (used : Nat → Bool) : Option Nat :=
  findIPv4Loop used base plen (ipv4Hosts base plen)

/-! ## IPv6 allocator: `find_next_available_ipv6` (utils.py lines 119-154) -/

/-- The eight 16-bit groups of an IPv6 address, most significant first. -/
def ipv6Groups (ip : Nat) : List Nat :=
  [ip / 2 ^ 112 % 65536, ip / 2 ^ 96 % 65536, ip / 2 ^ 80 % 65536,
   ip / 2 ^ 64 % 65536, ip / 2 ^ 48 % 65536, ip / 2 ^ 32 % 65536,
   ip / 2 ^ 16 % 65536, ip % 65536]

/-- The zero-run selection of Python's `_compress_hextets`: track the current
run of zero groups and the best (longest, leftmost on ties) run seen, with
`-1` denoting "no run". Returns `(best_start, best_len)`. -/
def bestZeroRun (groups : List Nat) : Int × Int :=
  let final := groups.enum.foldl
    (fun st p =>
      let (bs, bl, cs, cl) := st
      if p.2 == 0 then
        let cs' : Int := if cs == -1 then (p.1 : Int) else cs
        let cl' : Int := cl + 1
        if cl' > bl then (cs', cl', cs', cl') else (bs, bl, cs', cl')
      else
        (bs, bl, (-1 : Int), (0 : Int)))
    ((-1 : Int), (0 : Int), (-1 : Int), (0 : Int))
  (final.1, final.2.1)

/-- Whether `str(ip).endswith("::")` holds for an `IPv6Address`: Python compresses the best
zero-group run when it is longer than one group, and the rendering ends in
`::` exactly when that run extends through the last group. -/
def endsWithColonColon (ip : Nat) : Bool :=
  let br := bestZeroRun (ipv6Groups ip)
  br.2 > 1 && br.1 + br.2 == 8

/-- Number of addresses in an IPv6 block of the given prefix length. -/
def ipv6Size (plen : Nat) : Nat := 2 ^ (128 - plen)

/-- The scan loop of utils.py lines 129-142, one host address per unit of
`fuel`: skip the network address and `::`-suffixed renderings; collect each
address not in `used` (`acc`, with `count` mirroring the source's counter);
stop after the 1000th collected address or at the end of the host range; the
result is the first collected address, `acc.head?`. -/
def findIPv6Go (used : Nat → Bool) (netAddr : Nat) :
    Nat → Nat → Nat → List Nat → Option Nat
  | 0, _, _, acc => acc.head?
  | fuel + 1, ip, count, acc =>
    if ip == netAddr || endsWithColonColon ip then
      findIPv6Go used netAddr fuel (ip + 1) count acc
    else
      let st := if !(used ip) then (count + 1, acc ++ [ip]) else (count, acc)
      if st.1 ≥ 1000 then st.2.head?
      else findIPv6Go used netAddr fuel (ip + 1) st.1 st.2

/-- The function `find_next_available_ipv6` (utils.py lines 119-154), scanning Python
`IPv6Network.hosts()`: the single address for /128, otherwise every address
after the network address up to the end of the block. -/
def find_next_available_ipv6 (base plen : Nat) (used : Nat → Bool) :
    Option Nat :=
  if plen == 128 then findIPv6Go used base 1 base 0 []
  else findIPv6Go used base (ipv6Size plen - 1) (base + 1) 0 []

/-! ## CIDRs and the attribute-inheritance resolver
(models/network.py lines 665-726) -/

/-- A parsed `ipaddress.ip_network` value: family, network address and
prefix length. -/
structure Cidr where
  v6 : Bool
  addr : Nat
  plen : Nat
deriving DecidableEq

/-- Bit width of the address family. -/
def Cidr.width (c : Cidr) : Nat := if c.v6 then 128 else 32

/-- Number of addresses in the block. -/
def Cidr.size (c : Cidr) : Nat := 2 ^ (c.width - c.plen)

/-- The block's last address (`broadcast_address`). -/
def Cidr.broadcast (c : Cidr) : Nat := c.addr + c.size - 1

/-- Whether `ipaddress.ip_network` accepts the value with the default
`strict=True`: a prefix within the family's width, an address within range
and no host bits set. -/
def Cidr.strictOk (c : Cidr) : Bool :=
  decide (c.plen ≤ c.width) && decide (c.addr < 2 ^ c.width) &&
  c.addr % c.size == 0

/-- Python `a.subnet_of(b)`:
`b.network_address <= a.network_address and b.broadcast_address >= a.broadcast_address`. -/
def Cidr.subnetOf (a b : Cidr) : Bool :=
  decide (b.addr ≤ a.addr) && decide (a.broadcast ≤ b.broadcast)

/-- The test `child_network.subnet_of(container_network) and child_network != container_network`
(models/network.py line 704). -/
def strictlyInside (childNet cNet : Cidr) : Bool :=
  Cidr.subnetOf childNet cNet && !(childNet == cNet)

/-- The value of one extensible attribute: either a bare (non-dict) value or
a dict with optional `value` and an `inheritance` flag (`.get` defaults:
`""` and `False`). -/
inductive EAVal where
  | prim (v : PyValue)
  | comp (value : Option PyValue) (inheritance : Bool)
deriving DecidableEq

/-- A stored `network_container` record as the resolver reads it: its `_ref`,
parsed `network` CIDR, `network_view` and `extattrs`. -/
structure Container where
  ref : String
  network : Cidr
  network_view : String
  extattrs : List (String × EAVal)
deriving DecidableEq

/-- Whether the try-block of models/network.py lines 699-708 survives for
this candidate: `ip_network` (strict) must accept both CIDRs and
`subnet_of` raises on mixed families; any exception skips the candidate. -/
def candidateOk (childNet : Cidr) (c : Container) : Bool :=
  c.network.strictOk && childNet.strictOk && (c.network.v6 == childNet.v6)

/-- One iteration of the parent-container loop (models/network.py lines
696-707): skip other views and candidates the `try` block rejects; a
candidate strictly containing the child replaces the current parent whenever
the current parent's network is a subnet of the candidate's. -/
def parentStep (childNet : Cidr) (view : String)
    (parent : Option Container) (c : Container) : Option Container :=
  if !(c.network_view == view) then parent
  else if !(candidateOk childNet c) then parent
  else if strictlyInside childNet c.network then
    match parent with
    | none => some c
    | some p => if Cidr.subnetOf p.network c.network then some c else some p
  else parent

/-- The parent-container search of models/network.py lines 693-707: fold the
loop body over the stored containers, starting from no parent. -/
def findParentContainer (containers : List Container) (childNet : Cidr)
    (view : String) : Option Container :=
  containers.foldl (parentStep childNet view) none

/-- One step of the attribute-collection loop of models/network.py lines
715-721: a dict-valued container attribute whose `inheritance` flag is set is
surfaced as `{"value": ..., "inherited_from": parent._ref}`. -/
def inheritStep (pref : String) (m : PyDict) (kv : String × EAVal) : PyDict :=
  match kv.2 with
  | .comp v inh =>
      if inh then
        dictSet m kv.1
          (.dict [("value", v.getD (.str "")), ("inherited_from", .str pref)])
      else m
  | .prim _ => m

/-- The inheritance computation for a network record (models/network.py
lines 686-726): find the parent container, then fold the collection loop
over its extattrs. The child's own extattrs (`childOwn`) are never consulted
by the source, which is why the parameter is unused here. -/
def get_inherited_attributes (containers : List Container) (childNet : Cidr)
    (view : String) (childOwn : List (String × EAVal)) : PyDict :=
  match findParentContainer containers childNet view with
  | none => []
  | some p => p.extattrs.foldl (inheritStep p.ref) []

/-! ## Concrete store states

Records and stores drawn from `initialize_db` (db.py lines 106-282) and the
examples of the specification, used to evaluate the operations at specific
inputs. Timestamp strings stand for the `datetime.now().isoformat()` values
the source stamps. -/

/-- The seeded default network container of db.py lines 161-170. Its `_ref`
literal begins with `networkcontainer/` although it is stored in the
`network_container` collection. -/
def seedNetworkContainer (now : String) : PyDict :=
  [("_ref", .str "networkcontainer/ZG5zLm5ldHdvcmtfY29udGFpbmVyJDEwLjAuMC4wLzg:10.0.0.0/8"),
   ("network", .str "10.0.0.0/8"),
   ("network_view", .str "default"),
   ("comment", .str "Default network container"),
   ("extattrs", .dict []),
   ("_create_time", .str now),
   ("_modify_time", .str now)]

/-- The seeded container's `_ref` string. -/
def seedContainerRef : String :=
  "networkcontainer/ZG5zLm5ldHdvcmtfY29udGFpbmVyJDEwLjAuMC4wLzg:10.0.0.0/8"

/-- Validated input for `POST network`: 10.0.0.0/24 in the default view. -/
def netData1 : PyDict :=
  [("network", .str "10.0.0.0/24"), ("network_view", .str "default")]

/-- Validated input for `POST network`: the same 10.0.0.0/24 in another view. -/
def netData2 : PyDict :=
  [("network", .str "10.0.0.0/24"), ("network_view", .str "view2")]

/-- A stored network 10.0.0.0/24 in the default view. -/
def c1rec1 : PyDict :=
  [("_ref", .str "network/r1"), ("network", .str "10.0.0.0/24"),
   ("network_view", .str "default")]

/-- A stored network 10.0.1.0/24 in the default view. -/
def c1rec2 : PyDict :=
  [("_ref", .str "network/r2"), ("network", .str "10.0.1.0/24"),
   ("network_view", .str "default")]

/-- A store holding the two distinct networks. -/
def c1db : DB := [("network", [c1rec1, c1rec2])]

/-- A stored network container 10.0.0.0/8. -/
def c5parent : PyDict :=
  [("_ref", .str "network_container/P"), ("network", .str "10.0.0.0/8"),
   ("network_view", .str "default")]

/-- A stored network container 10.10.0.0/16, nested inside 10.0.0.0/8. -/
def c5child : PyDict :=
  [("_ref", .str "network_container/C"), ("network", .str "10.10.0.0/16"),
   ("network_view", .str "default")]

/-- A store with the nested pair of containers. -/
def c5db : DB := [("network_container", [c5parent, c5child])]

/-- 10.0.0.0/8 as a parsed CIDR. -/
def cidr8 : Cidr := ⟨false, 167772160, 8⟩

/-- 10.10.0.0/16 as a parsed CIDR. -/
def cidr16 : Cidr := ⟨false, 168427520, 16⟩

/-- 10.10.10.0/24 as a parsed CIDR. -/
def cidr24 : Cidr := ⟨false, 168430080, 24⟩

/-- Container 10.0.0.0/8 with an inheritable `Site` attribute. -/
def contA : Container :=
  ⟨"network_container/A", cidr8, "default",
   [("Site", .comp (some (.str "HQ")) true)]⟩

/-- Container 10.10.0.0/16 with an inheritable `Site` attribute. -/
def contB : Container :=
  ⟨"network_container/B", cidr16, "default",
   [("Site", .comp (some (.str "Branch")) true)]⟩

/-- Container 10.0.0.0/8 with an inheritable `Location` attribute. -/
def contLoc : Container :=
  ⟨"network_container/L", cidr8, "default",
   [("Location", .comp (some (.str "DC-1")) true)]⟩

/-- Child extattrs that define `Location` themselves. -/
def childOwnLoc : List (String × EAVal) :=
  [("Location", .comp (some (.str "ChildLoc")) false)]

/-- 10.10.10.0 as an integer (10.10.10.0/24's network address). -/
def c7base : Nat := 168430080

/-- In-use set `{10.10.10.1, 10.10.10.2}` of the specification's IPv4
allocation example. -/
def c7used : Nat → Bool := fun ip => ip == 168430081 || ip == 168430082

/-- 2001:db8:: as an integer. -/
def c4base : Nat := 0x20010db8 * 2 ^ 96

/-- In-use set covering the first 1000 host addresses of 2001:db8::/117 and
everything from the 1051st host to the end of the block, leaving
hosts 1001-1050 free. -/
def c4used : Nat → Bool := fun ip =>
  (decide (c4base + 1 ≤ ip) && decide (ip ≤ c4base + 1000)) ||
  (decide (c4base + 1051 ≤ ip) && decide (ip ≤ c4base + 2047))

/-- A host record carrying only the `ipv6addrs` list (the shape
`validate_and_prepare_ipv6_data` accepts for `record:host`), no scalar
`ipv6addr` field. -/
def c9rec : PyDict :=
  [("_ref", .str "record:host/h6"), ("name", .str "server6.example.com"),
   ("view", .str "default"),
   ("ipv6addrs", .list [.dict [("ipv6addr", .str "2001:db8::1")]])]

/-- A host record carrying the `ipv4addrs` list, as seeded by
`initialize_db` (db.py lines 209-219). -/
def c9rec4 : PyDict :=
  [("_ref", .str "record:host/h1"), ("name", .str "server1.example.com"),
   ("view", .str "default"),
   ("ipv4addrs", .list [.dict [("ipv4addr", .str "10.10.10.5")]])]

/-- A stored network record for exercising `update_object`. -/
def c8obj : PyDict :=
  [("_ref", .str "network/r1"), ("network", .str "10.0.0.0/24"),
   ("network_view", .str "default"),
   ("_create_time", .str "T0"), ("_modify_time", .str "T0")]

/-- A store holding that single network record. -/
def c8db : DB := [("network", [c8obj])]

/-- A patch mixing an ordinary field with reserved-field overwrite
attempts. -/
def c8patch : PyDict :=
  [("comment", .str "hello"), ("_create_time", .str "EVIL"),
   ("_ref", .str "network/evil")]

/-- The seeded SOA record's integer serial (db.py line 256) inside a
minimal record. -/
def c10soa : PyDict :=
  [("_ref", .str "record:soa/s"), ("name", .str "example.com"),
   ("serial", .int 2023010101)]

/-- A record storing a Python boolean `True`. -/
def c10boolrec : PyDict :=
  [("_ref", .str "grid/1"), ("allow_recursive_deletion", .bool true)]

/-- First host address Python's `IPv6Network.hosts()` yields. -/
def ipv6HostLo (base plen : Nat) : Nat :=
  if plen == 128 then base else base + 1

/-- Number of host addresses Python's `IPv6Network.hosts()` yields. -/
def ipv6HostCount (plen : Nat) : Nat :=
  if plen == 128 then 1 else ipv6Size plen - 1

/-- An address the IPv6 scan does not skip and that is free: it is neither
the network address nor `::`-suffixed, and not in `used`. -/
def ipv6Free (used : Nat → Bool) (netAddr ip : Nat) : Prop :=
  (ip == netAddr || endsWithColonColon ip) = false ∧ used ip = false

/-- Reference behaviour of the IPv6 scan: the first non-skipped address not
in `used` within `fuel` steps from `ip`. -/
def firstFreeIPv6 (used : Nat → Bool) (netAddr : Nat) : Nat → Nat → Option Nat
  | 0, _ => none
  | fuel + 1, ip =>
    if ip == netAddr || endsWithColonColon ip then
      firstFreeIPv6 used netAddr fuel (ip + 1)
    else if used ip then firstFreeIPv6 used netAddr fuel (ip + 1)
    else some ip

/-- A container the parent search of `get_inherited_attributes` considers
for a given child network: same view, CIDRs the `try` block accepts, and
strict containment of the child. -/
def qualifiesParent (childNet : Cidr) (view : String) (c : Container) : Prop :=
  c.network_view = view ∧ candidateOk childNet c = true ∧
  strictlyInside childNet c.network = true

/-- The store after a successful `POST network` of `netData1` into a store
whose `network` collection is empty. -/
def c1insertedDb : DB :=
  [("network",
    [netData1 ++
      [("_ref", .str "network/ZG5zLm5ldHdvcmskMTAuMTAuMTAuMC8yNA:10.0.0.0/24")]])]

/-- The `_ref` `generate_ref` produces for a network `10.0.0.0/24`,
whatever its view: the opaque token is a constant. -/
def c6ref : String := "network/ZG5zLm5ldHdvcmskMTAuMTAuMTAuMC8yNA:10.0.0.0/24"

/-- The stored record for `netData1` after insertion. -/
def c6rec1 : PyDict := netData1 ++ [("_ref", .str c6ref)]

/-- The stored record for `netData2` after insertion: a different view but
the identical `_ref`. -/
def c6rec2 : PyDict := netData2 ++ [("_ref", .str c6ref)]

/-- The store after inserting both records. -/
def c6db2 : DB := [("network", [c6rec1, c6rec2])]

/-- Natural-key uniqueness for the network family: no two records of the
collection share both `network` and `network_view` (the key the duplicate
guard of routes.py lines 50-56 compares, including absent fields compared
as Python `None == None`). -/
def natKeyUniqueNet (coll : List PyDict) : Prop :=
  coll.Pairwise (fun a b =>
    ¬(dictGet a "network" = dictGet b "network" ∧
      dictGet a "network_view" = dictGet b "network_view"))

/-- Natural-key uniqueness for `record:*` types: no two records share both
`name` and `view` (routes.py lines 58-64). -/
def natKeyUniqueRec (coll : List PyDict) : Prop :=
  coll.Pairwise (fun a b =>
    ¬(dictGet a "name" = dictGet b "name" ∧
      dictGet a "view" = dictGet b "view"))

/-- The record `update_object` produces for `c1rec2` when a patch rewrites
its `network` to `10.0.0.0/24`. -/
def c1rec2' : PyDict :=
  [("_ref", .str "network/r2"), ("network", .str "10.0.0.0/24"),
   ("network_view", .str "default"), ("_modify_time", .str "T1")]

/-! ## Helper lemmas on association lists -/

theorem assocFind_assocSet {α : Type} :
    ∀ (l : List (String × α)) (k k2 : String) (v : α),
      assocFind (assocSet l k v) k2 = if k2 = k then some v else assocFind l k2
  | [], k, k2, v => by
      by_cases h : k2 = k
      · subst h; simp [assocSet, assocFind, List.find?]
      · have hb : (k == k2) = false := by simp [Ne.symm h]
        simp [assocSet, assocFind, List.find?, h, hb]
  | (k0, v0) :: rest, k, k2, v => by
      have hrec := assocFind_assocSet rest k k2 v
      by_cases hk0 : k0 = k
      · subst hk0
        by_cases h : k2 = k0
        · subst h; simp [assocSet, assocFind, List.find?_cons]
        · have hb : (k0 == k2) = false := by simp [Ne.symm h]
          simp [assocSet, assocFind, List.find?_cons, h, hb]
      · have hne : (k0 == k) = false := by simp [hk0]
        by_cases h2 : k2 = k0
        · subst h2
          have h2k : ¬ k2 = k := hk0
          simp [assocSet, assocFind, List.find?_cons, hne, h2k]
        · have h2f : (k0 == k2) = false := by simp [Ne.symm h2]
          simp only [assocSet, hne, Bool.false_eq_true, if_false, assocFind,
            List.find?_cons, h2f] at hrec ⊢
          exact hrec

theorem assocFind_assocSet_self {α : Type} (l : List (String × α)) (k : String)
    (v : α) : assocFind (assocSet l k v) k = some v := by
  simp [assocFind_assocSet]

theorem assocFind_assocSet_ne {α : Type} (l : List (String × α)) (k k2 : String)
    (v : α) (h : k2 ≠ k) : assocFind (assocSet l k v) k2 = assocFind l k2 := by
  simp [assocFind_assocSet, h]

theorem dictGet_dictSet (d : PyDict) (k k2 : String) (v : PyValue) :
    dictGet (dictSet d k v) k2 = if k2 = k then some v else dictGet d k2 :=
  assocFind_assocSet d k k2 v

theorem dbGet_dbSet (db : DB) (t t2 : String) (coll : List PyDict) :
    dbGet (dbSet db t coll) t2 = if t2 = t then some coll else dbGet db t2 :=
  assocFind_assocSet db t t2 coll

theorem lastPatchGet_cons (k0 : String) (v0 : PyValue) (rest : PyDict)
    (k : String) :
    lastPatchGet ((k0, v0) :: rest) k =
      Option.or (lastPatchGet rest k) (if k0 == k then some v0 else none) := by
  simp only [lastPatchGet, List.reverse_cons, List.find?_append]
  cases h : List.find? (fun kv => kv.1 == k) rest.reverse with
  | none =>
      cases hb : (k0 == k) <;> simp [Option.or, List.find?, hb]
  | some kv =>
      simp [Option.or]

theorem dictGet_mergeNonReserved :
    ∀ (patch obj : PyDict) (k : String),
      dictGet (mergeNonReserved obj patch) k =
        if strStartsWith k "_" then dictGet obj k
        else Option.or (lastPatchGet patch k) (dictGet obj k)
  | [], obj, k => by
      simp [mergeNonReserved, lastPatchGet, Option.or]
  | (k0, v0) :: rest, obj, k => by
      have hstep : mergeNonReserved obj ((k0, v0) :: rest) =
          mergeNonReserved (if strStartsWith k0 "_" then obj else dictSet obj k0 v0)
            rest := by
        simp only [mergeNonReserved, List.foldl_cons]
      have hrec := dictGet_mergeNonReserved rest
        (if strStartsWith k0 "_" then obj else dictSet obj k0 v0) k
      rw [hstep, hrec, lastPatchGet_cons]
      by_cases hk : strStartsWith k "_"
      · simp only [hk, if_true]
        by_cases hk0 : strStartsWith k0 "_"
        · simp [hk0]
        · have hne : k0 ≠ k := fun h => hk0 (h ▸ hk)
          have : k ≠ k0 := fun h => hne h.symm
          simp [hk0, dictGet_dictSet, this]
      · have hgoal : dictGet (if strStartsWith k0 "_" then obj else dictSet obj k0 v0) k =
            Option.or (if k0 == k then some v0 else none) (dictGet obj k) := by
          cases hb : (k0 == k) with
          | true =>
              have hk0k : k0 = k := by simpa using hb
              subst hk0k
              simp [hk, dictGet_dictSet, Option.or]
          | false =>
              have hne : ¬ k = k0 := by
                intro h; subst h; simp at hb
              by_cases hk0 : strStartsWith k0 "_"
              · simp [hk0, Option.or]
              · simp [hk0, dictGet_dictSet, hne, Option.or]
        simp [hk, hgoal, Option.or_assoc]

/-- C8: for every existing record and every patch, `update(ref, patch)`
leaves `_ref`, `_create_time` and every other underscore-prefixed field
supplied in the patch unchanged, merges each non-underscore patch field into
the record (the patch's last binding for the key winning, as in a Python
dict), always restamps `_modify_time` with the current time, and returns the
input `ref` unchanged. -/
theorem C8_update_reference_stability
    (db : DB) (ref : String) (patch : PyDict) (now : String)
    (coll : List PyDict) (i : Nat) (o : PyDict)
    (hcoll : dbGet db (refObjType ref) = some coll)
    (hidx : coll.findIdx? (fun r => dictGet r "_ref" == some (.str ref)) = some i)
    (hget : coll[i]? = some o) :
    (update_object db ref patch now).1 = some ref ∧
    (update_object db ref patch now).2 =
      dbSet db (refObjType ref) (coll.set i (applyPatch o patch now)) ∧
    dictGet (applyPatch o patch now) "_ref" = dictGet o "_ref" ∧
    dictGet (applyPatch o patch now) "_create_time" = dictGet o "_create_time" ∧
    (∀ k, strStartsWith k "_" = true → k ≠ "_modify_time" →
      dictGet (applyPatch o patch now) k = dictGet o k) ∧
    dictGet (applyPatch o patch now) "_modify_time" = some (.str now) ∧
    (∀ k, strStartsWith k "_" = false →
      dictGet (applyPatch o patch now) k =
        Option.or (lastPatchGet patch k) (dictGet o k)) := by
  have hreserved : ∀ k, strStartsWith k "_" = true → k ≠ "_modify_time" →
      dictGet (applyPatch o patch now) k = dictGet o k := by
    intro k hk hkm
    unfold applyPatch
    rw [dictGet_dictSet]
    simp only [hkm, if_false]
    rw [dictGet_mergeNonReserved, if_pos hk]
  refine ⟨?_, ?_, ?_, ?_, hreserved, ?_, ?_⟩
  · simp [update_object, hcoll, hidx, hget]
  · simp [update_object, hcoll, hidx, hget]
  · exact hreserved "_ref" (by decide) (by decide)
  · exact hreserved "_create_time" (by decide) (by decide)
  · unfold applyPatch
    rw [dictGet_dictSet]
    simp
  · intro k hk
    have hkm : k ≠ "_modify_time" := by
      intro h
      subst h
      exact (by decide : strStartsWith "_modify_time" "_" ≠ false) hk
    unfold applyPatch
    rw [dictGet_dictSet]
    simp only [hkm, if_false]
    rw [dictGet_mergeNonReserved, hk]
    simp

/-- Witness: `C8_update_reference_stability` applied to the concrete store
`c8db`, reference `network/r1` and patch `c8patch`. -/
theorem C8_witness :
    (dbGet c8db (refObjType "network/r1") = some [c8obj] ∧
     [c8obj].findIdx?
       (fun r => dictGet r "_ref" == some (.str "network/r1")) = some 0 ∧
     [c8obj][0]? = some c8obj) ∧
    (update_object c8db "network/r1" c8patch "T1").1 = some "network/r1" ∧
    dictGet (applyPatch c8obj c8patch "T1") "_create_time" =
      dictGet c8obj "_create_time" ∧
    dictGet (applyPatch c8obj c8patch "T1") "_modify_time" = some (.str "T1") := by
  have h1 : dbGet c8db (refObjType "network/r1") = some [c8obj] := by decide
  have h2 : [c8obj].findIdx?
      (fun r => dictGet r "_ref" == some (.str "network/r1")) = some 0 := by decide
  have h3 : [c8obj][0]? = some c8obj := by decide
  have h := C8_update_reference_stability c8db "network/r1" c8patch "T1"
    [c8obj] 0 c8obj h1 h2 h3
  exact ⟨⟨h1, h2, h3⟩, h.1, h.2.2.2.1, h.2.2.2.2.2.1⟩

theorem handleObjectsPost_netBranch (db : DB) (objType : String)
    (validated : PyDict) (uuid : String)
    (hcond : (objType == "network" || objType == "network_container") = true) :
    handleObjectsPost db objType validated uuid =
      (if ((dbGet db objType).getD []).any (fun ex =>
            dictGet ex "network" ==
              dictGet (dictSet validated "_ref"
                (.str (generate_ref objType validated uuid))) "network" &&
            dictGet ex "network_view" ==
              dictGet (dictSet validated "_ref"
                (.str (generate_ref objType validated uuid))) "network_view")
       then .error ("Network already exists: " ++
              pyStrOpt (dictGet (dictSet validated "_ref"
                (.str (generate_ref objType validated uuid))) "network"))
       else .ok (add_object db objType
              (dictSet validated "_ref"
                (.str (generate_ref objType validated uuid))))) := by
  unfold handleObjectsPost
  simp only [hcond, if_true]

theorem handleObjectsPost_recBranch (db : DB) (objType : String)
    (validated : PyDict) (uuid : String)
    (hcond1 : (objType == "network" || objType == "network_container") = false)
    (hcond2 : strStartsWith objType "record:" = true) :
    handleObjectsPost db objType validated uuid =
      (if ((dbGet db objType).getD []).any (fun ex =>
            dictGet ex "name" ==
              dictGet (dictSet validated "_ref"
                (.str (generate_ref objType validated uuid))) "name" &&
            dictGet ex "view" ==
              dictGet (dictSet validated "_ref"
                (.str (generate_ref objType validated uuid))) "view")
       then .error ("DNS record already exists: " ++
              pyStrOpt (dictGet (dictSet validated "_ref"
                (.str (generate_ref objType validated uuid))) "name"))
       else .ok (add_object db objType
              (dictSet validated "_ref"
                (.str (generate_ref objType validated uuid))))) := by
  unfold handleObjectsPost
  simp only [hcond1, hcond2, if_true, Bool.false_eq_true, if_false]

theorem pairwise_append_guard (coll : List PyDict) (data : PyDict)
    (f g : PyDict → Option PyValue)
    (hany : coll.any (fun ex => f ex == f data && g ex == g data) = false)
    (huniq : coll.Pairwise (fun a b => ¬(f a = f b ∧ g a = g b))) :
    (coll ++ [data]).Pairwise (fun a b => ¬(f a = f b ∧ g a = g b)) := by
  rw [List.pairwise_append]
  refine ⟨huniq, List.pairwise_singleton _ _, ?_⟩
  intro a ha b hb
  have hb' : b = data := by simpa using hb
  subst hb'
  have := List.any_eq_false.mp hany a ha
  intro hcon
  exact this (by simp [hcon.1, hcon.2])

/-- C1 (amended): the natural-key duplicate guard lives in the insert path
only. For networks and containers (resp. `record:*` types), an insert whose
`network`+`network_view` (resp. `name`+`view`) collides with a stored record
returns a duplicate error and produces no new store, and a successful insert
preserves natural-key uniqueness of the collection; `update_object`, by
contrast, performs no natural-key check (see the counterexample). -/
theorem C1_insert_uniqueness (db : DB) (objType : String) (validated : PyDict)
    (uuid : String) :
    ((objType = "network" ∨ objType = "network_container") →
      (∀ db2 r, handleObjectsPost db objType validated uuid = .ok (db2, r) →
         natKeyUniqueNet ((dbGet db objType).getD []) →
         natKeyUniqueNet ((dbGet db2 objType).getD [])) ∧
      ((∃ ex ∈ (dbGet db objType).getD [],
          dictGet ex "network" = dictGet validated "network" ∧
          dictGet ex "network_view" = dictGet validated "network_view") →
        ∃ msg, handleObjectsPost db objType validated uuid = .error msg)) ∧
    (strStartsWith objType "record:" = true →
      (∀ db2 r, handleObjectsPost db objType validated uuid = .ok (db2, r) →
         natKeyUniqueRec ((dbGet db objType).getD []) →
         natKeyUniqueRec ((dbGet db2 objType).getD [])) ∧
      ((∃ ex ∈ (dbGet db objType).getD [],
          dictGet ex "name" = dictGet validated "name" ∧
          dictGet ex "view" = dictGet validated "view") →
        ∃ msg, handleObjectsPost db objType validated uuid = .error msg)) := by
  have hnet : ∀ k : String, k ≠ "_ref" →
      dictGet (dictSet validated "_ref"
        (.str (generate_ref objType validated uuid))) k = dictGet validated k := by
    intro k hk
    rw [dictGet_dictSet, if_neg hk]
  constructor
  · intro ht
    have hcond : (objType == "network" || objType == "network_container") = true := by
      rcases ht with rfl | rfl <;> decide
    have hbranch := handleObjectsPost_netBranch db objType validated uuid hcond
    constructor
    · intro db2 r hok huniq
      rw [hbranch] at hok
      cases hany : ((dbGet db objType).getD []).any (fun ex =>
          dictGet ex "network" ==
            dictGet (dictSet validated "_ref"
              (.str (generate_ref objType validated uuid))) "network" &&
          dictGet ex "network_view" ==
            dictGet (dictSet validated "_ref"
              (.str (generate_ref objType validated uuid))) "network_view") with
      | true => rw [hany] at hok; simp at hok
      | false =>
          rw [hany] at hok
          simp only [if_false, Bool.false_eq_true] at hok
          have hdb2 : db2 = dbSet db objType
              (((dbGet db objType).getD []) ++
                [dictSet validated "_ref"
                  (.str (generate_ref objType validated uuid))]) := by
            have := congrArg Prod.fst (Except.ok.inj hok)
            simpa [add_object] using this.symm
          rw [hdb2, dbGet_dbSet, if_pos rfl]
          exact pairwise_append_guard _ _
            (fun ex => dictGet ex "network") (fun ex => dictGet ex "network_view")
            hany huniq
    · rintro ⟨ex, hmem, h1, h2⟩
      have hany : ((dbGet db objType).getD []).any (fun ex =>
          dictGet ex "network" ==
            dictGet (dictSet validated "_ref"
              (.str (generate_ref objType validated uuid))) "network" &&
          dictGet ex "network_view" ==
            dictGet (dictSet validated "_ref"
              (.str (generate_ref objType validated uuid))) "network_view") = true := by
        refine List.any_eq_true.mpr ⟨ex, hmem, ?_⟩
        rw [hnet "network" (by decide), hnet "network_view" (by decide)]
        simp [h1, h2]
      exact ⟨_, by rw [hbranch, if_pos hany]⟩
  · intro hrec
    have h1 : (objType == "network") = false := by
      cases hq : objType == "network"
      · rfl
      · have : objType = "network" := by simpa using hq
        subst this
        exact absurd hrec (by decide)
    have h2 : (objType == "network_container") = false := by
      cases hq : objType == "network_container"
      · rfl
      · have : objType = "network_container" := by simpa using hq
        subst this
        exact absurd hrec (by decide)
    have hcond1 : (objType == "network" || objType == "network_container") = false := by
      simp [h1, h2]
    have hbranch := handleObjectsPost_recBranch db objType validated uuid hcond1 hrec
    constructor
    · intro db2 r hok huniq
      rw [hbranch] at hok
      cases hany : ((dbGet db objType).getD []).any (fun ex =>
          dictGet ex "name" ==
            dictGet (dictSet validated "_ref"
              (.str (generate_ref objType validated uuid))) "name" &&
          dictGet ex "view" ==
            dictGet (dictSet validated "_ref"
              (.str (generate_ref objType validated uuid))) "view") with
      | true => rw [hany] at hok; simp at hok
      | false =>
          rw [hany] at hok
          simp only [if_false, Bool.false_eq_true] at hok
          have hdb2 : db2 = dbSet db objType
              (((dbGet db objType).getD []) ++
                [dictSet validated "_ref"
                  (.str (generate_ref objType validated uuid))]) := by
            have := congrArg Prod.fst (Except.ok.inj hok)
            simpa [add_object] using this.symm
          rw [hdb2, dbGet_dbSet, if_pos rfl]
          exact pairwise_append_guard _ _
            (fun ex => dictGet ex "name") (fun ex => dictGet ex "view")
            hany huniq
    · rintro ⟨ex, hmem, hn1, hn2⟩
      have hany : ((dbGet db objType).getD []).any (fun ex =>
          dictGet ex "name" ==
            dictGet (dictSet validated "_ref"
              (.str (generate_ref objType validated uuid))) "name" &&
          dictGet ex "view" ==
            dictGet (dictSet validated "_ref"
              (.str (generate_ref objType validated uuid))) "view") = true := by
        refine List.any_eq_true.mpr ⟨ex, hmem, ?_⟩
        rw [hnet "name" (by decide), hnet "view" (by decide)]
        simp [hn1, hn2]
      exact ⟨_, by rw [hbranch, if_pos hany]⟩

/-- Witness: `C1_insert_uniqueness` applied to inserting `netData1` into a
store with an empty `network` collection; the resulting collection is
natural-key unique. -/
theorem C1_witness :
    (("network" : String) = "network" ∨ ("network" : String) = "network_container") ∧
    natKeyUniqueNet ((dbGet c1insertedDb "network").getD []) := by
  have hok : handleObjectsPost [("network", [])] "network" netData1 "u1" =
      .ok (c1insertedDb,
        some (.str "network/ZG5zLm5ldHdvcmskMTAuMTAuMTAuMC8yNA:10.0.0.0/24")) := by
    decide
  have huniq : natKeyUniqueNet ((dbGet [("network", [])] "network").getD []) :=
    List.Pairwise.nil
  exact ⟨Or.inl rfl,
    ((C1_insert_uniqueness [("network", [])] "network" netData1 "u1").1
      (Or.inl rfl)).1 c1insertedDb _ hok huniq⟩

/-- C1 counterexample: `update_object` happily rewrites `network/r2`'s
`network` field to `10.0.0.0/24`, after which two stored networks share the
natural key `network`+`network_view`: the update succeeds rather than being
rejected, so natural-key uniqueness is not an invariant of every Store
operation. -/
theorem C1_counterexample :
    (update_object c1db "network/r2" [("network", .str "10.0.0.0/24")] "T1").1 =
      some "network/r2" ∧
    dbGet (update_object c1db "network/r2"
        [("network", .str "10.0.0.0/24")] "T1").2 "network" =
      some [c1rec1, c1rec2'] ∧
    ¬ natKeyUniqueNet [c1rec1, c1rec2'] := by
  refine ⟨by decide, by decide, ?_⟩
  intro h
  have hrel := (List.pairwise_cons.mp h).1 c1rec2' (by simp)
  exact hrel ⟨by decide, by decide⟩

/-- C5 (amended): deleting a NetworkContainer present in the store always
succeeds: `delete_object` returns the reference and removes exactly the
records bearing it, keeping every other record — there is no parent-container
deletion guard, whatever other containers are nested inside the deleted one.
(The only deletion guard of this kind in the code base concerns network
compartments' declared `parent_compartment` field, a separate feature.) -/
theorem C5_delete_no_guard (db : DB) (ref : String) (coll : List PyDict)
    (hcoll : dbGet db (refObjType ref) = some coll)
    (hmem : ∃ o ∈ coll, dictGet o "_ref" = some (.str ref)) :
    (delete_object db ref).1 = some ref ∧
    (delete_object db ref).2 =
      dbSet db (refObjType ref)
        (coll.filter (fun o => !(dictGet o "_ref" == some (.str ref)))) ∧
    (∀ o ∈ coll.filter (fun o => !(dictGet o "_ref" == some (.str ref))),
       dictGet o "_ref" ≠ some (.str ref)) ∧
    (∀ o ∈ coll, dictGet o "_ref" ≠ some (.str ref) →
       o ∈ coll.filter (fun o => !(dictGet o "_ref" == some (.str ref)))) := by
  have hany : coll.any (fun o => dictGet o "_ref" == some (.str ref)) = true := by
    obtain ⟨o, ho, he⟩ := hmem
    exact List.any_eq_true.mpr ⟨o, ho, by simp [he]⟩
  refine ⟨?_, ?_, ?_, ?_⟩
  · simp [delete_object, hcoll, hany]
  · simp [delete_object, hcoll, hany]
  · intro o ho
    have := (List.mem_filter.mp ho).2
    simpa using this
  · intro o ho hne
    exact List.mem_filter.mpr ⟨ho, by simpa using hne⟩

/-- Witness: `C5_delete_no_guard` applied to the nested-container store
`c5db` and the outer container's reference. -/
theorem C5_witness :
    (dbGet c5db (refObjType "network_container/P") = some [c5parent, c5child] ∧
     ∃ o ∈ [c5parent, c5child],
       dictGet o "_ref" = some (.str "network_container/P")) ∧
    (delete_object c5db "network_container/P").1 = some "network_container/P" := by
  have h1 : dbGet c5db (refObjType "network_container/P") =
      some [c5parent, c5child] := by decide
  have h2 : ∃ o ∈ [c5parent, c5child],
      dictGet o "_ref" = some (.str "network_container/P") :=
    ⟨c5parent, by simp, by decide⟩
  exact ⟨⟨h1, h2⟩, (C5_delete_no_guard c5db "network_container/P"
    [c5parent, c5child] h1 h2).1⟩

/-- C5 counterexample: container `network_container/C` (10.10.0.0/16) is
strictly contained in `network_container/P` (10.0.0.0/8) in the same view,
yet deleting P succeeds and mutates the store, removing P. -/
theorem C5_counterexample :
    strictlyInside cidr16 cidr8 = true ∧
    dictGet c5parent "network_view" = dictGet c5child "network_view" ∧
    (delete_object c5db "network_container/P").1 = some "network_container/P" ∧
    (delete_object c5db "network_container/P").2 =
      [("network_container", [c5child])] ∧
    [("network_container", [c5child])] ≠ c5db := by
  exact ⟨by decide, by decide, by decide, by decide, by decide⟩

/-- C6: the code assigns colliding references and seeds a record whose
reference routes to a non-existent collection. Inserting 10.0.0.0/24 into
the `default` view and then into `view2` succeeds twice (distinct natural
keys) but both stored records carry the identical `_ref` — `generate_ref`
computes a uuid-derived token and never uses it, embedding a constant and
the network only. Moreover the seeded `network_container` record's `_ref`
begins with `networkcontainer/`, so `find_object_by_ref` on its own `_ref`
returns nothing although the record is stored. -/
theorem C6_ref_collision_and_seed_prefix :
    handleObjectsPost [("network", [])] "network" netData1 "u1" =
      .ok (c1insertedDb, some (.str c6ref)) ∧
    handleObjectsPost c1insertedDb "network" netData2 "u2" =
      .ok (c6db2, some (.str c6ref)) ∧
    dbGet c6db2 "network" = some [c6rec1, c6rec2] ∧
    dictGet c6rec1 "_ref" = dictGet c6rec2 "_ref" ∧
    c6rec1 ≠ c6rec2 ∧
    find_object_by_ref [("network_container", [seedNetworkContainer "T0"])]
      seedContainerRef = none ∧
    dictGet (seedNetworkContainer "T0") "_ref" = some (.str seedContainerRef) := by
  exact ⟨by decide, by decide, by decide, by decide, by decide, by decide,
    by decide⟩

theorem findIPv4Loop_eq_find? (used : Nat → Bool) (base plen : Nat) :
    ∀ l : List Nat, findIPv4Loop used base plen l =
      l.find? (fun ip => !(used ip) && !(ipv4Special base plen ip))
  | [] => rfl
  | ip :: rest => by
      rw [List.find?_cons]
      cases hu : used ip with
      | true =>
          simp only [findIPv4Loop, hu, Bool.not_true, Bool.false_and]
          exact findIPv4Loop_eq_find? used base plen rest
      | false =>
          cases hs : ipv4Special base plen ip with
          | true =>
              simp only [findIPv4Loop, hu, hs, Bool.not_true, Bool.not_false,
                Bool.true_and, if_true, Bool.false_eq_true, if_false]
              exact findIPv4Loop_eq_find? used base plen rest
          | false =>
              simp [findIPv4Loop, hu, hs]

theorem find?_sorted_min {l : List Nat} (hs : l.Pairwise (fun a b => a < b))
    (p : Nat → Bool) {a : Nat} (h : l.find? p = some a) :
    ∀ b ∈ l, p b = true → a ≤ b := by
  induction l with
  | nil => simp at h
  | cons x xs ih =>
      rw [List.find?_cons] at h
      cases hp : p x with
      | true =>
          rw [hp] at h
          have hax : a = x := by simpa using h.symm
          subst hax
          intro b hb _
          rcases List.mem_cons.mp hb with hbx | hbxs
          · omega
          · exact Nat.le_of_lt ((List.pairwise_cons.mp hs).1 b hbxs)
      | false =>
          rw [hp] at h
          intro b hb hpb
          rcases List.mem_cons.mp hb with hbx | hbxs
          · subst hbx; rw [hp] at hpb; cases hpb
          · exact ih (List.pairwise_cons.mp hs).2 h b hbxs hpb

theorem find?_sorted_eq_some {l : List Nat} (hs : l.Pairwise (fun a b => a < b))
    (p : Nat → Bool) {a : Nat} (ha : a ∈ l) (hpa : p a = true)
    (hmin : ∀ b ∈ l, p b = true → a ≤ b) : l.find? p = some a := by
  induction l with
  | nil => cases ha
  | cons x xs ih =>
      rw [List.find?_cons]
      cases hp : p x with
      | true =>
          have hax : a = x := by
            rcases List.mem_cons.mp ha with h | h
            · exact h
            · have hlt := (List.pairwise_cons.mp hs).1 a h
              have hle := hmin x (List.mem_cons_self x xs) hp
              omega
          rw [hax]
      | false =>
          have hane : a ≠ x := fun h => by rw [h, hp] at hpa; cases hpa
          have haxs : a ∈ xs := by
            rcases List.mem_cons.mp ha with h | h
            · exact absurd h hane
            · exact h
          exact ih (List.pairwise_cons.mp hs).2 haxs
            (fun b hb hpb => hmin b (List.mem_cons_of_mem x hb) hpb)

/-- C7: `find_next_available_ip` returns the smallest host address of the
CIDR that is neither the network nor the broadcast address, whose final
octet is not 0, 1 or 255, and that is not in `used`; it returns `none`
exactly when no such address exists. -/
theorem C7_ipv4_next_free (base plen : Nat) (used : Nat → Bool)
    (h1 : plen ≤ 32) (h2 : base % ipv4Size plen = 0) (h3 : base < 2 ^ 32) :
    (∀ a, find_next_available_ip base plen used = some a ↔
       (a ∈ ipv4Hosts base plen ∧ ipv4Special base plen a = false ∧
        used a = false ∧
        ∀ b ∈ ipv4Hosts base plen, ipv4Special base plen b = false →
          used b = false → a ≤ b)) ∧
    (find_next_available_ip base plen used = none ↔
       ∀ a ∈ ipv4Hosts base plen,
         ipv4Special base plen a = false → used a = false → False) := by
  have hpair : (ipv4Hosts base plen).Pairwise (fun a b => a < b) := by
    unfold ipv4Hosts
    by_cases hp32 : plen == 32
    · simp [hp32]
    · by_cases hp31 : plen == 31
      · simp only [hp32, Bool.false_eq_true, if_false, hp31, if_true]
        exact List.pairwise_cons.mpr
          ⟨by intro b hb; simp at hb; omega, List.pairwise_singleton _ _⟩
      · simp only [hp32, hp31, Bool.false_eq_true, if_false]
        rw [List.pairwise_map]
        exact (List.pairwise_lt_range _).imp (fun hab => by omega)
  have hloop := findIPv4Loop_eq_find? used base plen (ipv4Hosts base plen)
  constructor
  · intro a
    constructor
    · intro h
      rw [find_next_available_ip, hloop] at h
      have hpa := List.find?_some h
      have hmem := List.mem_of_find?_eq_some h
      simp only [Bool.and_eq_true, Bool.not_eq_true'] at hpa
      refine ⟨hmem, hpa.2, hpa.1, ?_⟩
      intro b hb h1b h2b
      exact find?_sorted_min hpair _ h b hb (by simp [h1b, h2b])
    · rintro ⟨hmem, hspec, hused, hmin⟩
      rw [find_next_available_ip, hloop]
      refine find?_sorted_eq_some hpair _ hmem (by simp [hspec, hused]) ?_
      intro b hb hpb
      simp only [Bool.and_eq_true, Bool.not_eq_true'] at hpb
      exact hmin b hb hpb.2 hpb.1
  · rw [find_next_available_ip, hloop, List.find?_eq_none]
    constructor
    · intro h a ha hs hu
      have := h a ha
      simp [hs, hu] at this
    · intro h a ha hpa
      simp only [Bool.and_eq_true, Bool.not_eq_true'] at hpa
      exact h a ha hpa.2 hpa.1

/-- Witness: `C7_ipv4_next_free` applied to 10.10.10.0/24 with
`{10.10.10.1, 10.10.10.2}` in use; the allocator yields 10.10.10.3 and the
theorem certifies it as the smallest eligible free address. -/
theorem C7_witness :
    (24 ≤ 32 ∧ c7base % ipv4Size 24 = 0 ∧ c7base < 2 ^ 32) ∧
    find_next_available_ip c7base 24 c7used = some 168430083 ∧
    (168430083 ∈ ipv4Hosts c7base 24 ∧
     ipv4Special c7base 24 168430083 = false ∧ c7used 168430083 = false ∧
     ∀ b ∈ ipv4Hosts c7base 24, ipv4Special c7base 24 b = false →
       c7used b = false → 168430083 ≤ b) := by
  have h := C7_ipv4_next_free c7base 24 c7used (by decide) (by decide) (by decide)
  have hres : find_next_available_ip c7base 24 c7used = some 168430083 := by decide
  exact ⟨⟨by decide, by decide, by decide⟩, hres, (h.1 168430083).mp hres⟩

theorem findIPv6Go_head (used : Nat → Bool) (netAddr : Nat) :
    ∀ (fuel ip count a : Nat) (rest : List Nat),
      findIPv6Go used netAddr fuel ip count (a :: rest) = some a
  | 0, ip, count, a, rest => rfl
  | fuel + 1, ip, count, a, rest => by
      unfold findIPv6Go
      by_cases hskip : (ip == netAddr || endsWithColonColon ip) = true
      · simp only [hskip, if_true]
        exact findIPv6Go_head used netAddr fuel (ip + 1) count a rest
      · rw [Bool.not_eq_true] at hskip
        simp only [hskip, Bool.false_eq_true, if_false]
        cases hu : used ip with
        | true =>
            simp only [hu, Bool.not_true, Bool.false_eq_true, if_false]
            by_cases hc : count ≥ 1000
            · simp [hc]
            · simp only [hc, if_false]
              exact findIPv6Go_head used netAddr fuel (ip + 1) count a rest
        | false =>
            simp only [hu, Bool.not_false, if_true, List.cons_append]
            by_cases hc : count + 1 ≥ 1000
            · simp [hc]
            · simp only [hc, if_false]
              exact findIPv6Go_head used netAddr fuel (ip + 1) (count + 1) a
                (rest ++ [ip])

theorem findIPv6Go_empty (used : Nat → Bool) (netAddr : Nat) :
    ∀ (fuel ip : Nat),
      findIPv6Go used netAddr fuel ip 0 [] = firstFreeIPv6 used netAddr fuel ip
  | 0, ip => rfl
  | fuel + 1, ip => by
      unfold findIPv6Go firstFreeIPv6
      by_cases hskip : (ip == netAddr || endsWithColonColon ip) = true
      · simp only [hskip, if_true]
        exact findIPv6Go_empty used netAddr fuel (ip + 1)
      · rw [Bool.not_eq_true] at hskip
        simp only [hskip, Bool.false_eq_true, if_false]
        cases hu : used ip with
        | true =>
            simp only [hu, Bool.not_true, Bool.false_eq_true, if_false, if_true]
            have : ¬ (0 ≥ 1000) := by omega
            simp only [this, if_false]
            exact findIPv6Go_empty used netAddr fuel (ip + 1)
        | false =>
            simp only [hu, Bool.not_false, if_true, List.nil_append]
            have : ¬ (0 + 1 ≥ 1000) := by omega
            simp only [this, if_false]
            exact findIPv6Go_head used netAddr fuel (ip + 1) (0 + 1) ip []

theorem firstFreeIPv6_eq_some (used : Nat → Bool) (netAddr : Nat) :
    ∀ (fuel ip a : Nat),
      firstFreeIPv6 used netAddr fuel ip = some a ↔
        (ip ≤ a ∧ a < ip + fuel ∧ ipv6Free used netAddr a ∧
         ∀ b, ip ≤ b → b < a → ¬ ipv6Free used netAddr b)
  | 0, ip, a => by
      simp only [firstFreeIPv6]
      constructor
      · intro h; cases h
      · rintro ⟨h1, h2, _, _⟩; omega
  | fuel + 1, ip, a => by
      unfold firstFreeIPv6
      by_cases hskip : (ip == netAddr || endsWithColonColon ip) = true
      · have hnotfree : ¬ ipv6Free used netAddr ip := fun hf => by
          rw [hf.1] at hskip; cases hskip
        simp only [hskip, if_true]
        rw [firstFreeIPv6_eq_some used netAddr fuel (ip + 1) a]
        constructor
        · rintro ⟨h1, h2, h3, h4⟩
          refine ⟨by omega, by omega, h3, ?_⟩
          intro b hb1 hb2
          rcases Nat.eq_or_lt_of_le hb1 with hbe | hbl
          · rw [hbe] at hnotfree; exact hnotfree
          · exact h4 b hbl hb2
        · rintro ⟨h1, h2, h3, h4⟩
          have hne : a ≠ ip := fun he => hnotfree (he ▸ h3)
          refine ⟨by omega, by omega, h3, ?_⟩
          intro b hb1 hb2
          exact h4 b (by omega) hb2
      · rw [Bool.not_eq_true] at hskip
        simp only [hskip, Bool.false_eq_true, if_false]
        cases hu : used ip with
        | true =>
            have hnotfree : ¬ ipv6Free used netAddr ip := fun hf => by
              rw [hf.2] at hu; cases hu
            simp only [if_true]
            rw [firstFreeIPv6_eq_some used netAddr fuel (ip + 1) a]
            constructor
            · rintro ⟨h1, h2, h3, h4⟩
              refine ⟨by omega, by omega, h3, ?_⟩
              intro b hb1 hb2
              rcases Nat.eq_or_lt_of_le hb1 with hbe | hbl
              · rw [hbe] at hnotfree; exact hnotfree
              · exact h4 b hbl hb2
            · rintro ⟨h1, h2, h3, h4⟩
              have hne : a ≠ ip := fun he => hnotfree (he ▸ h3)
              refine ⟨by omega, by omega, h3, ?_⟩
              intro b hb1 hb2
              exact h4 b (by omega) hb2
        | false =>
            simp only [Bool.false_eq_true, if_false]
            have hfree : ipv6Free used netAddr ip := ⟨hskip, hu⟩
            constructor
            · intro h
              have hai : a = ip := by simpa using h.symm
              subst hai
              exact ⟨Nat.le_refl a, by omega, hfree, fun b hb1 hb2 => by omega⟩
            · rintro ⟨h1, h2, h3, h4⟩
              have : a = ip := by
                by_contra hne
                exact h4 ip (Nat.le_refl ip) (by omega) hfree
              rw [this]
  termination_by fuel ip a => fuel

theorem firstFreeIPv6_eq_none (used : Nat → Bool) (netAddr : Nat) :
    ∀ (fuel ip : Nat),
      firstFreeIPv6 used netAddr fuel ip = none ↔
        ∀ b, ip ≤ b → b < ip + fuel → ¬ ipv6Free used netAddr b
  | 0, ip => by
      simp only [firstFreeIPv6]
      constructor
      · intro _ b hb1 hb2; omega
      · intro _; trivial
  | fuel + 1, ip => by
      unfold firstFreeIPv6
      by_cases hskip : (ip == netAddr || endsWithColonColon ip) = true
      · have hnotfree : ¬ ipv6Free used netAddr ip := fun hf => by
          rw [hf.1] at hskip; cases hskip
        simp only [hskip, if_true]
        rw [firstFreeIPv6_eq_none used netAddr fuel (ip + 1)]
        constructor
        · intro h b hb1 hb2
          rcases Nat.eq_or_lt_of_le hb1 with hbe | hbl
          · rw [hbe] at hnotfree; exact hnotfree
          · exact h b hbl (by omega)
        · intro h b hb1 hb2
          exact h b (by omega) (by omega)
      · rw [Bool.not_eq_true] at hskip
        simp only [hskip, Bool.false_eq_true, if_false]
        cases hu : used ip with
        | true =>
            have hnotfree : ¬ ipv6Free used netAddr ip := fun hf => by
              rw [hf.2] at hu; cases hu
            simp only [if_true]
            rw [firstFreeIPv6_eq_none used netAddr fuel (ip + 1)]
            constructor
            · intro h b hb1 hb2
              rcases Nat.eq_or_lt_of_le hb1 with hbe | hbl
              · rw [hbe] at hnotfree; exact hnotfree
              · exact h b hbl (by omega)
            · intro h b hb1 hb2
              exact h b (by omega) (by omega)
        | false =>
            simp only [Bool.false_eq_true, if_false]
            have hfree : ipv6Free used netAddr ip := ⟨hskip, hu⟩
            constructor
            · intro h; cases h
            · intro h
              exact absurd hfree (h ip (Nat.le_refl ip) (by omega))
  termination_by fuel ip => fuel

/-- C4 (amended): the 1000-address constant of `find_next_available_ipv6`
bounds only how many free addresses the scan collects, not how much of the
host space it examines: the function returns the first host address of the
CIDR (skipping the network address and addresses whose rendering ends in
`::`) that is not in `used`, wherever in the host range it lies, and it
returns `none` exactly when no such address exists in the entire host
range — never merely because the first 1000 enumerated hosts are in use. -/
theorem C4_ipv6_next_free (base plen : Nat) (used : Nat → Bool) :
    (∀ a, find_next_available_ipv6 base plen used = some a ↔
       (ipv6HostLo base plen ≤ a ∧
        a < ipv6HostLo base plen + ipv6HostCount plen ∧
        ipv6Free used base a ∧
        ∀ b, ipv6HostLo base plen ≤ b → b < a → ¬ ipv6Free used base b)) ∧
    (find_next_available_ipv6 base plen used = none ↔
       ∀ b, ipv6HostLo base plen ≤ b →
         b < ipv6HostLo base plen + ipv6HostCount plen →
         ¬ ipv6Free used base b) := by
  unfold find_next_available_ipv6 ipv6HostLo ipv6HostCount
  by_cases hp : (plen == 128) = true
  · simp only [hp, if_true]
    constructor
    · intro a
      rw [findIPv6Go_empty, firstFreeIPv6_eq_some]
    · rw [findIPv6Go_empty, firstFreeIPv6_eq_none]
  · rw [Bool.not_eq_true] at hp
    simp only [hp, Bool.false_eq_true, if_false]
    constructor
    · intro a
      rw [findIPv6Go_empty, firstFreeIPv6_eq_some]
    · rw [findIPv6Go_empty, firstFreeIPv6_eq_none]

/-- C4 counterexample: for 2001:db8::/117 every address of the claim's
window — the first 1000 enumerated host addresses — is in use, and free
addresses exist beyond the window; the scan does not stop at the window but
returns the 1001st host address instead of the `none` the claim requires. -/
theorem C4_counterexample :
    ((List.range 1000).all (fun j => c4used (c4base + 1 + j))) = true ∧
    find_next_available_ipv6 c4base 117 c4used = some (c4base + 1001) := by
  constructor
  · rw [List.all_eq_true]
    intro j hj
    rw [List.mem_range] at hj
    simp only [c4used, Bool.or_eq_true, Bool.and_eq_true, decide_eq_true_eq]
    left
    exact ⟨by omega, by omega⟩
  · have h117 : ((117 : Nat) == 128) = false := by decide
    unfold find_next_available_ipv6
    rw [h117]
    simp only [Bool.false_eq_true, if_false]
    rw [findIPv6Go_empty, firstFreeIPv6_eq_some]
    have hsz : ipv6Size 117 = 2048 := by decide
    refine ⟨by omega, by omega, ⟨by decide, by decide⟩, ?_⟩
    intro b hb1 hb2 hfree
    have hbu : c4used b = true := by
      simp only [c4used, Bool.or_eq_true, Bool.and_eq_true, decide_eq_true_eq]
      left
      exact ⟨hb1, by omega⟩
    rw [hfree.2] at hbu
    cases hbu

theorem Cidr.subnetOf_refl (a : Cidr) : a.subnetOf a = true := by
  simp [Cidr.subnetOf]

theorem Cidr.subnetOf_trans {a b c : Cidr} (hab : a.subnetOf b = true)
    (hbc : b.subnetOf c = true) : a.subnetOf c = true := by
  simp only [Cidr.subnetOf, Bool.and_eq_true, decide_eq_true_eq] at *
  omega

theorem Cidr.size_pos (a : Cidr) : 0 < a.size := by
  unfold Cidr.size
  exact pow_pos (by omega) _

theorem cidr_nested_of_le (a b : Cidr) (hw : a.width = b.width)
    (ha : a.strictOk = true) (hb : b.strictOk = true)
    (hsize : a.size ≤ b.size) (x : Nat)
    (hax1 : a.addr ≤ x) (hax2 : x < a.addr + a.size)
    (hbx1 : b.addr ≤ x) (hbx2 : x < b.addr + b.size) :
    b.addr ≤ a.addr ∧ a.addr + a.size ≤ b.addr + b.size := by
  simp only [Cidr.strictOk, Bool.and_eq_true, decide_eq_true_eq,
    beq_iff_eq] at ha hb
  have haal : a.size ∣ a.addr := Nat.dvd_of_mod_eq_zero ha.2
  have hbal : b.size ∣ b.addr := Nat.dvd_of_mod_eq_zero hb.2
  have hdvd : a.size ∣ b.size := by
    have hexp := (Nat.pow_le_pow_iff_right (by omega : 1 < 2)).mp
      (by simpa [Cidr.size] using hsize)
    simpa [Cidr.size] using pow_dvd_pow 2 hexp
  have hSbpos : 0 < b.size := b.size_pos
  have hm : a.size ∣ a.addr % b.size := (Nat.dvd_mod_iff hdvd).mpr haal
  have hmlt : a.addr % b.size < b.size := Nat.mod_lt _ hSbpos
  have hmSa : a.addr % b.size + a.size ≤ b.size := by
    obtain ⟨t, ht⟩ := hm
    obtain ⟨k, hk⟩ := hdvd
    have htk : t < k := by
      have h1 : a.size * t < a.size * k := by rw [← ht, ← hk]; exact hmlt
      exact Nat.lt_of_mul_lt_mul_left h1
    have h2 : a.size * (t + 1) ≤ a.size * k := Nat.mul_le_mul_left _ htk
    have h3 : a.size * (t + 1) = a.size * t + a.size := by ring
    omega
  have hdm := Nat.div_add_mod a.addr b.size
  obtain ⟨qb, hqb⟩ := hbal
  have hq1 : (a.addr / b.size) * b.size ≤ x :=
    le_trans (Nat.div_mul_le_self a.addr b.size) hax1
  have hq2 : x < (a.addr / b.size + 1) * b.size := by
    have h3 : (a.addr / b.size + 1) * b.size =
        b.size * (a.addr / b.size) + b.size := by ring
    omega
  have hxq : x / b.size = a.addr / b.size := Nat.div_eq_of_lt_le hq1 hq2
  have hqb1 : qb * b.size ≤ x := by
    have hcomm : qb * b.size = b.size * qb := by ring
    omega
  have hqb2 : x < (qb + 1) * b.size := by
    have h3 : (qb + 1) * b.size = b.size * qb + b.size := by ring
    omega
  have hxqb : x / b.size = qb := Nat.div_eq_of_lt_le hqb1 hqb2
  have hbaddr : b.addr = b.size * (a.addr / b.size) := by
    rw [hqb, ← hxqb, hxq]
  constructor
  · omega
  · omega

theorem cidr_comparable (a b : Cidr) (hv : a.v6 = b.v6)
    (ha : a.strictOk = true) (hb : b.strictOk = true) (x : Nat)
    (hax1 : a.addr ≤ x) (hax2 : x < a.addr + a.size)
    (hbx1 : b.addr ≤ x) (hbx2 : x < b.addr + b.size) :
    a.subnetOf b = true ∨ b.subnetOf a = true := by
  have hw : a.width = b.width := by unfold Cidr.width; rw [hv]
  have hSa := a.size_pos
  have hSb := b.size_pos
  rcases le_total a.size b.size with h | h
  · left
    have hn := cidr_nested_of_le a b hw ha hb h x hax1 hax2 hbx1 hbx2
    simp only [Cidr.subnetOf, Cidr.broadcast, Bool.and_eq_true,
      decide_eq_true_eq]
    omega
  · right
    have hn := cidr_nested_of_le b a hw.symm hb ha h x hbx1 hbx2 hax1 hax2
    simp only [Cidr.subnetOf, Cidr.broadcast, Bool.and_eq_true,
      decide_eq_true_eq]
    omega

theorem point_in_of_subnet {child q : Cidr}
    (hsub : Cidr.subnetOf child q = true) :
    q.addr ≤ child.addr ∧ child.addr < q.addr + q.size := by
  simp only [Cidr.subnetOf, Cidr.broadcast, Bool.and_eq_true,
    decide_eq_true_eq] at hsub
  have h1 := child.size_pos
  have h2 := q.size_pos
  omega

theorem qualifies_comparable {childNet : Cidr} {view : String}
    {p c : Container} (hp : qualifiesParent childNet view p)
    (hc : qualifiesParent childNet view c) :
    Cidr.subnetOf p.network c.network = true ∨
    Cidr.subnetOf c.network p.network = true := by
  obtain ⟨_, hpok, hpin⟩ := hp
  obtain ⟨_, hcok, hcin⟩ := hc
  simp only [candidateOk, Bool.and_eq_true, beq_iff_eq] at hpok hcok
  simp only [strictlyInside, Bool.and_eq_true] at hpin hcin
  have hv : p.network.v6 = c.network.v6 := by
    rw [hpok.2, hcok.2]
  have h1 := point_in_of_subnet hpin.1
  have h2 := point_in_of_subnet hcin.1
  exact cidr_comparable p.network c.network hv hpok.1.1 hcok.1.1
    childNet.addr h1.1 h1.2 h2.1 h2.2

theorem findParent_go_spec (childNet : Cidr) (view : String) :
    ∀ (cs : List Container) (acc : Option Container),
      (∀ p, acc = some p → qualifiesParent childNet view p) →
      (∀ c, cs.foldl (parentStep childNet view) acc = some c →
         qualifiesParent childNet view c ∧ (acc = some c ∨ c ∈ cs)) ∧
      (∀ p, acc = some p →
         ∃ rc, cs.foldl (parentStep childNet view) acc = some rc ∧
           Cidr.subnetOf p.network rc.network = true) ∧
      (∀ c' ∈ cs, qualifiesParent childNet view c' →
         ∃ rc, cs.foldl (parentStep childNet view) acc = some rc ∧
           Cidr.subnetOf c'.network rc.network = true) := by
  intro cs
  induction cs with
  | nil =>
      intro acc hacc
      refine ⟨?_, ?_, ?_⟩
      · intro c hc; exact ⟨hacc c hc, Or.inl hc⟩
      · intro p hp; exact ⟨p, hp, Cidr.subnetOf_refl _⟩
      · intro c' hc'; cases hc'
  | cons c0 cs ih =>
      intro acc hacc
      simp only [List.foldl_cons]
      -- analyse one step
      by_cases hview : (c0.network_view == view) = true
      · by_cases hok : candidateOk childNet c0 = true
        · by_cases hin : strictlyInside childNet c0.network = true
          · have hq0 : qualifiesParent childNet view c0 :=
              ⟨by simpa using hview, hok, hin⟩
            cases acc with
            | none =>
                have hstep : parentStep childNet view none c0 = some c0 := by
                  simp [parentStep, hview, hok, hin]
                rw [hstep]
                have hacc' : ∀ p, some c0 = some p →
                    qualifiesParent childNet view p := by
                  intro p hp; cases hp; exact hq0
                have H := ih (some c0) hacc'
                refine ⟨?_, ?_, ?_⟩
                · intro c hc
                  have h1 := H.1 c hc
                  rcases h1.2 with h | h
                  · cases h; exact ⟨h1.1, Or.inr (List.mem_cons_self _ _)⟩
                  · exact ⟨h1.1, Or.inr (List.mem_cons_of_mem _ h)⟩
                · intro p hp; cases hp
                · intro c' hc' hq'
                  rcases List.mem_cons.mp hc' with h | h
                  · subst h
                    exact H.2.1 c' rfl
                  · exact H.2.2 c' h hq'
            | some p =>
                have hqp : qualifiesParent childNet view p := hacc p rfl
                by_cases hps : Cidr.subnetOf p.network c0.network = true
                · have hstep : parentStep childNet view (some p) c0 = some c0 := by
                    simp [parentStep, hview, hok, hin, hps]
                  rw [hstep]
                  have hacc' : ∀ q, some c0 = some q →
                      qualifiesParent childNet view q := by
                    intro q hq; cases hq; exact hq0
                  have H := ih (some c0) hacc'
                  refine ⟨?_, ?_, ?_⟩
                  · intro c hc
                    have h1 := H.1 c hc
                    rcases h1.2 with h | h
                    · cases h; exact ⟨h1.1, Or.inr (List.mem_cons_self _ _)⟩
                    · exact ⟨h1.1, Or.inr (List.mem_cons_of_mem _ h)⟩
                  · intro q hq
                    cases hq
                    obtain ⟨rc, hrc, hsub⟩ := H.2.1 c0 rfl
                    exact ⟨rc, hrc, Cidr.subnetOf_trans hps hsub⟩
                  · intro c' hc' hq'
                    rcases List.mem_cons.mp hc' with h | h
                    · subst h
                      exact H.2.1 c' rfl
                    · exact H.2.2 c' h hq'
                · have hstep : parentStep childNet view (some p) c0 = some p := by
                    simp [parentStep, hview, hok, hin, hps]
                  rw [hstep]
                  have H := ih (some p) hacc
                  refine ⟨?_, ?_, ?_⟩
                  · intro c hc
                    have h1 := H.1 c hc
                    rcases h1.2 with h | h
                    · exact ⟨h1.1, Or.inl h⟩
                    · exact ⟨h1.1, Or.inr (List.mem_cons_of_mem _ h)⟩
                  · intro q hq
                    exact H.2.1 q hq
                  · intro c' hc' hq'
                    rcases List.mem_cons.mp hc' with h | h
                    · subst h
                      have hcp : Cidr.subnetOf c'.network p.network = true := by
                        rcases qualifies_comparable hqp hq' with hx | hx
                        · exact absurd hx hps
                        · exact hx
                      obtain ⟨rc, hrc, hsub⟩ := H.2.1 p rfl
                      exact ⟨rc, hrc, Cidr.subnetOf_trans hcp hsub⟩
                    · exact H.2.2 c' h hq'
          · have hstep : ∀ acc0, parentStep childNet view acc0 c0 = acc0 := by
              intro acc0; simp [parentStep, hview, hok, hin]
            rw [hstep]
            have H := ih acc hacc
            refine ⟨?_, ?_, ?_⟩
            · intro c hc
              have h1 := H.1 c hc
              rcases h1.2 with h | h
              · exact ⟨h1.1, Or.inl h⟩
              · exact ⟨h1.1, Or.inr (List.mem_cons_of_mem _ h)⟩
            · exact H.2.1
            · intro c' hc' hq'
              rcases List.mem_cons.mp hc' with h | h
              · subst h
                exact absurd hq'.2.2 hin
              · exact H.2.2 c' h hq'
        · have hstep : ∀ acc0, parentStep childNet view acc0 c0 = acc0 := by
            intro acc0; simp [parentStep, hview, hok]
          rw [hstep]
          have H := ih acc hacc
          refine ⟨?_, ?_, ?_⟩
          · intro c hc
            have h1 := H.1 c hc
            rcases h1.2 with h | h
            · exact ⟨h1.1, Or.inl h⟩
            · exact ⟨h1.1, Or.inr (List.mem_cons_of_mem _ h)⟩
          · exact H.2.1
          · intro c' hc' hq'
            rcases List.mem_cons.mp hc' with h | h
            · subst h
              exact absurd hq'.2.1 hok
            · exact H.2.2 c' h hq'
      · have hstep : ∀ acc0, parentStep childNet view acc0 c0 = acc0 := by
          intro acc0; simp [parentStep, hview]
        rw [hstep]
        have H := ih acc hacc
        refine ⟨?_, ?_, ?_⟩
        · intro c hc
          have h1 := H.1 c hc
          rcases h1.2 with h | h
          · exact ⟨h1.1, Or.inl h⟩
          · exact ⟨h1.1, Or.inr (List.mem_cons_of_mem _ h)⟩
        · exact H.2.1
        · intro c' hc' hq'
          rcases List.mem_cons.mp hc' with h | h
          · subst h
            have : (c'.network_view == view) = true := by
              simp [hq'.1]
            exact absurd this hview
          · exact H.2.2 c' h hq'

/-- C2 (amended): when some NetworkContainer of the same view strictly
contains the network, the parent search returns one, and the container it
returns is the WIDEST such container — every other qualifying container's
CIDR is a subnet of the chosen one's (the update condition
`parent.subnet_of(candidate)` replaces the current parent by any broader
candidate); inherited attributes are then drawn from that container and
tagged with its `_ref`. The specification's "narrowest" does not hold. -/
theorem C2_parent_is_widest (containers : List Container) (childNet : Cidr)
    (view : String) :
    (∀ c, findParentContainer containers childNet view = some c →
       qualifiesParent childNet view c ∧ c ∈ containers ∧
       ∀ c' ∈ containers, qualifiesParent childNet view c' →
         Cidr.subnetOf c'.network c.network = true) ∧
    (∀ c' ∈ containers, qualifiesParent childNet view c' →
       ∃ c, findParentContainer containers childNet view = some c) := by
  have hgo := findParent_go_spec childNet view containers none
    (by intro p hp; cases hp)
  unfold findParentContainer
  constructor
  · intro c hc
    have h1 := hgo.1 c hc
    rcases h1.2 with h | h
    · cases h
    · refine ⟨h1.1, h, ?_⟩
      intro c' hc' hq
      obtain ⟨rc, hrc, hsub⟩ := hgo.2.2 c' hc' hq
      rw [hc] at hrc
      cases hrc
      exact hsub
  · intro c' hc' hq
    obtain ⟨rc, hrc, _⟩ := hgo.2.2 c' hc' hq
    exact ⟨rc, hrc⟩

/-- Witness: `C2_parent_is_widest` on the store holding only container
10.10.0.0/16 and the child 10.10.10.0/24: the search returns that container
and the theorem certifies it qualifies and dominates every qualifying
container. -/
theorem C2_witness :
    findParentContainer [contB] cidr24 "default" = some contB ∧
    (qualifiesParent cidr24 "default" contB ∧ contB ∈ [contB] ∧
     ∀ c' ∈ [contB], qualifiesParent cidr24 "default" c' →
       Cidr.subnetOf c'.network contB.network = true) := by
  have hres : findParentContainer [contB] cidr24 "default" = some contB := by
    decide
  exact ⟨hres, (C2_parent_is_widest [contB] cidr24 "default").1 contB hres⟩

/-- C2 counterexample: with containers 10.0.0.0/8 and 10.10.0.0/16 both
enclosing child 10.10.10.0/24 in the default view, the /16 qualifies and is
strictly narrower than the /8, yet the resolver picks the /8 and inherits
`Site` from it — not the narrowest container. -/
theorem C2_counterexample :
    findParentContainer [contA, contB] cidr24 "default" = some contA ∧
    qualifiesParent cidr24 "default" contB ∧
    Cidr.subnetOf contB.network contA.network = true ∧
    contB.network ≠ contA.network ∧
    get_inherited_attributes [contA, contB] cidr24 "default" [] =
      [("Site", .dict [("value", .str "HQ"),
                       ("inherited_from", .str "network_container/A")])] := by
  exact ⟨by decide, ⟨rfl, by decide, by decide⟩, by decide, by decide, by decide⟩

theorem assocFind_eq_none_of_not_mem {α : Type} (l : List (String × α))
    (k : String) (h : k ∉ l.map Prod.fst) : assocFind l k = none := by
  have hf : List.find? (fun kv => kv.1 == k) l = none := by
    rw [List.find?_eq_none]
    intro kv hkv hbeq
    exact h (List.mem_map.mpr ⟨kv, hkv, by simpa using hbeq⟩)
  simp [assocFind, hf]

theorem inherit_fold_get (pref : String) :
    ∀ (ea : List (String × EAVal)) (m : PyDict) (name : String),
      (ea.map Prod.fst).Nodup →
      dictGet (ea.foldl (inheritStep pref) m) name =
        (match assocFind ea name with
         | some (.comp v true) =>
             some (.dict [("value", v.getD (.str "")),
                          ("inherited_from", .str pref)])
         | _ => dictGet m name)
  | [], m, name, _ => by
      simp [assocFind, List.find?]
  | (k0, av) :: rest, m, name, hnodup => by
      have hcons : (k0 :: rest.map Prod.fst).Nodup := by simpa using hnodup
      have hk0 : k0 ∉ rest.map Prod.fst := (List.nodup_cons.mp hcons).1
      have hrest : (rest.map Prod.fst).Nodup := (List.nodup_cons.mp hcons).2
      rw [List.foldl_cons]
      rw [inherit_fold_get pref rest (inheritStep pref m (k0, av)) name hrest]
      by_cases hname : name = k0
      · subst hname
        have hfind : assocFind ((name, av) :: rest) name = some av := by
          simp [assocFind, List.find?_cons]
        have hrestnone : assocFind rest name = none :=
          assocFind_eq_none_of_not_mem rest name hk0
        rw [hfind, hrestnone]
        cases av with
        | prim v =>
            simp [inheritStep]
        | comp v inh =>
            cases inh with
            | true =>
                simp only [inheritStep, if_true]
                rw [dictGet_dictSet]
                simp
            | false =>
                simp [inheritStep]
      · have hfind : assocFind ((k0, av) :: rest) name = assocFind rest name := by
          have hb : (k0 == name) = false :=
            beq_eq_false_iff_ne.mpr (fun h => hname h.symm)
          simp [assocFind, List.find?_cons, hb]
        rw [hfind]
        have hm' : dictGet (inheritStep pref m (k0, av)) name = dictGet m name := by
          cases av with
          | prim v => simp [inheritStep]
          | comp v inh =>
              cases inh with
              | true =>
                  simp only [inheritStep, if_true]
                  rw [dictGet_dictSet]
                  simp [hname]
              | false => simp [inheritStep]
        cases hfr : assocFind rest name with
        | none => simp [hm']
        | some av' =>
            cases av' with
            | prim v => simp [hm']
            | comp v inh =>
                cases inh with
                | true => simp
                | false => simp [hm']

/-- C3 (amended): for a network with an enclosing container, the inherited
map contains exactly the container attributes that are dict-valued with
`inheritance=true`, each tagged with the container's `_ref` as
`inherited_from` — independent of the child's own extattrs: the source never
consults them, so an attribute name defined on the child still appears in
the inherited map (contrary to the claim's "not already defined" filter,
which exists only in the separate `process_ea_inheritance` helper). -/
theorem C3_inherited_ignores_child (containers : List Container)
    (childNet : Cidr) (view : String) (childOwn : List (String × EAVal))
    (p : Container)
    (hfind : findParentContainer containers childNet view = some p)
    (hnodup : (p.extattrs.map Prod.fst).Nodup) :
    (∀ childOwn2, get_inherited_attributes containers childNet view childOwn =
       get_inherited_attributes containers childNet view childOwn2) ∧
    (∀ name,
       dictGet (get_inherited_attributes containers childNet view childOwn)
         name =
       (match assocFind p.extattrs name with
        | some (.comp v true) =>
            some (.dict [("value", v.getD (.str "")),
                         ("inherited_from", .str p.ref)])
        | _ => none)) := by
  constructor
  · intro childOwn2
    rfl
  · intro name
    unfold get_inherited_attributes
    rw [hfind]
    rw [inherit_fold_get p.ref p.extattrs [] name hnodup]
    cases hfr : assocFind p.extattrs name with
    | none => simp [dictGet, assocFind, List.find?]
    | some av =>
        cases av with
        | prim v => simp [dictGet, assocFind, List.find?]
        | comp v inh =>
            cases inh with
            | true => simp
            | false => simp [dictGet, assocFind, List.find?]

/-- Witness: `C3_inherited_ignores_child` on container 10.0.0.0/8 carrying
an inheritable `Location` and the child 10.10.10.0/24 that defines
`Location` itself: the inherited map still surfaces the container's value
tagged with its `_ref`. -/
theorem C3_witness :
    (findParentContainer [contLoc] cidr24 "default" = some contLoc ∧
     (contLoc.extattrs.map Prod.fst).Nodup) ∧
    dictGet (get_inherited_attributes [contLoc] cidr24 "default" childOwnLoc)
      "Location" =
      some (.dict [("value", .str "DC-1"),
                   ("inherited_from", .str "network_container/L")]) := by
  have h1 : findParentContainer [contLoc] cidr24 "default" = some contLoc := by
    decide
  have h2 : (contLoc.extattrs.map Prod.fst).Nodup := by decide
  have h := (C3_inherited_ignores_child [contLoc] cidr24 "default" childOwnLoc
    contLoc h1 h2).2 "Location"
  rw [h]
  decide

/-- C3 counterexample: the child's extattrs define `Location`, yet the
inherited map still contains `Location` — an attribute name defined on the
child does appear in the inherited map. -/
theorem C3_counterexample :
    assocHas childOwnLoc "Location" = true ∧
    containsKey (get_inherited_attributes [contLoc] cidr24 "default"
      childOwnLoc) "Location" = true := by
  exact ⟨by decide, by decide⟩

theorem assocHas_of_assocFind {α : Type} {l : List (String × α)} {k : String}
    {v : α} (h : assocFind l k = some v) : assocHas l k = true := by
  unfold assocFind at h
  cases hf : List.find? (fun kv => kv.1 == k) l with
  | none => rw [hf] at h; cases h
  | some kv =>
      have hm := List.mem_of_find?_eq_some hf
      have hp : (kv.1 == k) = true := by
        simpa using @List.find?_some _ (fun kv => kv.1 == k) kv l hf
      exact List.any_eq_true.mpr ⟨kv, hm, hp⟩

theorem assocFind_eq_none_of_not_has {α : Type} {l : List (String × α)}
    {k : String} (h : assocHas l k = false) : assocFind l k = none := by
  cases hf : assocFind l k with
  | none => rfl
  | some v => rw [assocHas_of_assocFind hf] at h; cases h

theorem entryIpv4Matches_iff (v e : PyValue) :
    entryIpv4Matches v e = true ↔
      ∃ d, e = .dict d ∧ dictGet d "ipv4addr" = some v := by
  cases e with
  | dict d =>
      simp only [entryIpv4Matches]
      cases hg : dictGet d "ipv4addr" with
      | none =>
          constructor
          · intro h; cases h
          · rintro ⟨d', hd', hfound⟩
            cases hd'
            rw [hg] at hfound; cases hfound
      | some a =>
          constructor
          · intro h
            exact ⟨d, rfl, by rw [hg, eq_of_beq h]⟩
          · rintro ⟨d', hd', hfound⟩
            cases hd'
            rw [hg] at hfound
            cases hfound
            simp
  | str s =>
      simp only [entryIpv4Matches]
      constructor
      · intro h; cases h
      · rintro ⟨d, hd, _⟩; cases hd
  | int n =>
      simp only [entryIpv4Matches]
      constructor
      · intro h; cases h
      · rintro ⟨d, hd, _⟩; cases hd
  | bool b =>
      simp only [entryIpv4Matches]
      constructor
      · intro h; cases h
      · rintro ⟨d, hd, _⟩; cases hd
  | list xs =>
      simp only [entryIpv4Matches]
      constructor
      · intro h; cases h
      · rintro ⟨d, hd, _⟩; cases hd

/-- C9 (amended): the scalar-filter-to-list-of-structs fallback exists only
for IPv4. Filtering on `ipv4addr` against a record carrying `ipv4addrs`
matches iff some list entry's `ipv4addr` equals the filter value; on the
IPv6 side there is no such branch: a record lacking the scalar `ipv6addr`
never matches an `ipv6addr` filter, whatever its `ipv6addrs` list holds. -/
theorem C9_list_sibling_fallback (obj : PyDict) (xs : List PyValue)
    (v : PyValue)
    (hlist : dictGet obj "ipv4addrs" = some (.list xs)) :
    (matchKV obj "ipv4addr" v = true ↔
       ∃ e ∈ xs, ∃ d, e = .dict d ∧ dictGet d "ipv4addr" = some v) ∧
    (∀ (obj2 : PyDict) (w : PyValue), containsKey obj2 "ipv6addr" = false →
       matchKV obj2 "ipv6addr" w = false) := by
  constructor
  · have hhas : containsKey obj "ipv4addrs" = true := assocHas_of_assocFind hlist
    have hdot : strContainsChar "ipv4addr" '.' = false := by decide
    unfold matchKV
    rw [hdot]
    simp only [Bool.false_eq_true, if_false, beq_self_eq_true, Bool.true_and,
      hhas, if_true]
    unfold ipv4addrsAny
    rw [hlist]
    rw [List.any_eq_true]
    constructor
    · rintro ⟨e, he, hme⟩
      exact ⟨e, he, (entryIpv4Matches_iff v e).mp hme⟩
    · rintro ⟨e, he, hd⟩
      exact ⟨e, he, (entryIpv4Matches_iff v e).mpr hd⟩
  · intro obj2 w h6
    have hdot : strContainsChar "ipv6addr" '.' = false := by decide
    have hne : (("ipv6addr" : String) == "ipv4addr") = false := by decide
    unfold matchKV
    rw [hdot, hne]
    simp only [Bool.false_eq_true, if_false, Bool.false_and]
    rw [dictGet, assocFind_eq_none_of_not_has h6]

/-- Witness: `C9_list_sibling_fallback` on the seeded host record carrying
`ipv4addrs = [{ipv4addr: 10.10.10.5}]`: the `ipv4addr` filter matches. -/
theorem C9_witness :
    dictGet c9rec4 "ipv4addrs" =
      some (.list [.dict [("ipv4addr", .str "10.10.10.5")]]) ∧
    matchKV c9rec4 "ipv4addr" (.str "10.10.10.5") = true := by
  have h1 : dictGet c9rec4 "ipv4addrs" =
      some (.list [.dict [("ipv4addr", .str "10.10.10.5")]]) := by decide
  refine ⟨h1, (C9_list_sibling_fallback c9rec4 _ (.str "10.10.10.5") h1).1.mpr ?_⟩
  exact ⟨.dict [("ipv4addr", .str "10.10.10.5")], by simp,
    [("ipv4addr", .str "10.10.10.5")], rfl, by decide⟩

/-- C9 counterexample: a host record carrying only the `ipv6addrs` list is
not matched by an `ipv6addr` filter equal to its list entry — the claim's
IPv6 half fails. -/
theorem C9_counterexample :
    dictGet c9rec "ipv6addrs" =
      some (.list [.dict [("ipv6addr", .str "2001:db8::1")]]) ∧
    containsKey c9rec "ipv6addr" = false ∧
    matchKV c9rec "ipv6addr" (.str "2001:db8::1") = false := by
  exact ⟨by decide, by decide, by decide⟩

/-- C10: query equality in the plain-field branch is string-coerced —
`str(stored) == str(filter)` — so a non-string stored value matches the
filter equal to its Python string rendering (e.g. an integer serial), while
the case-insensitive fallback fires only when the stored value itself is a
string: a stored boolean `True` does not match the filter `"true"`. -/
theorem C10_string_coerced_equality (obj : PyDict) (key : String)
    (fv : PyValue)
    (hdot : strContainsChar key '.' = false)
    (hip : (key == "ipv4addr" && containsKey obj "ipv4addrs") = false) :
    (∀ v, dictGet obj key = some v →
       (matchKV obj key fv = true ↔
         (pyStr v = pyStr fv ∨
          (∃ s t, v = .str s ∧ fv = .str t ∧ strToLower s = strToLower t)))) ∧
    (∀ n : Int, dictGet obj key = some (.int n) →
       matchKV obj key (.str (toString n)) = true) ∧
    (dictGet obj key = some (.bool true) →
       matchKV obj key (.str "true") = false) := by
  have hbranch : ∀ (fv' : PyValue) (v : PyValue), dictGet obj key = some v →
      matchKV obj key fv' =
        (if pyStr v == pyStr fv' then true
         else
           match v, fv' with
           | .str s, .str t => strToLower s == strToLower t
           | _, _ => false) := by
    intro fv' v hv
    unfold matchKV
    rw [hdot, hip]
    simp only [Bool.false_eq_true, if_false]
    rw [hv]
  refine ⟨?_, ?_, ?_⟩
  · intro v hv
    rw [hbranch fv v hv]
    cases hs : (pyStr v == pyStr fv) with
    | true =>
        simp only [if_true]
        constructor
        · intro _
          exact Or.inl (eq_of_beq hs)
        · intro _; trivial
    | false =>
        simp only [Bool.false_eq_true, if_false]
        constructor
        · intro h
          cases v with
          | str s =>
              cases fv with
              | str t => exact Or.inr ⟨s, t, rfl, rfl, eq_of_beq h⟩
              | int n => cases h
              | bool b => cases h
              | list xs => cases h
              | dict kvs => cases h
          | int n => cases fv <;> cases h
          | bool b => cases fv <;> cases h
          | list xs => cases fv <;> cases h
          | dict kvs => cases fv <;> cases h
        · rintro (h | ⟨s, t, rfl, rfl, hlow⟩)
          · rw [show (pyStr v == pyStr fv) = true from by simp [h]] at hs
            cases hs
          · simp [hlow]
  · intro n hn
    rw [hbranch _ _ hn]
    have : pyStr (.int n) = pyStr (.str (toString n)) := rfl
    simp [this]
  · intro hb
    rw [hbranch _ _ hb]
    have h1 : (pyStr (.bool true) == pyStr (.str "true")) = false := by decide
    rw [h1]
    simp

/-- Witness: `C10_string_coerced_equality` on the seeded SOA record's
integer serial (matches the filter `"2023010101"`) and on a stored boolean
`True` (does not match the filter `"true"`). -/
theorem C10_witness :
    (strContainsChar "serial" '.' = false ∧
     (("serial" : String) == "ipv4addr" && containsKey c10soa "ipv4addrs") = false) ∧
    matchKV c10soa "serial" (.str "2023010101") = true ∧
    matchKV c10boolrec "allow_recursive_deletion" (.str "true") = false := by
  have h1 : strContainsChar "serial" '.' = false := by decide
  have h2 : (("serial" : String) == "ipv4addr" &&
      containsKey c10soa "ipv4addrs") = false := by decide
  have h3 : strContainsChar "allow_recursive_deletion" '.' = false := by decide
  have h4 : (("allow_recursive_deletion" : String) == "ipv4addr" &&
      containsKey c10boolrec "ipv4addrs") = false := by decide
  refine ⟨⟨h1, h2⟩, ?_, ?_⟩
  · have hg : dictGet c10soa "serial" = some (.int 2023010101) := by decide
    exact (C10_string_coerced_equality c10soa "serial" (.str "2023010101")
      h1 h2).2.1 2023010101 hg
  · have hg : dictGet c10boolrec "allow_recursive_deletion" =
        some (.bool true) := by decide
    exact (C10_string_coerced_equality c10boolrec "allow_recursive_deletion"
      (.str "true") h3 h4).2.2 hg

end Infoblox
